import Mathlib

/-!
ksenseapi: patient risk scoring and paginated collection.

A shallow embedding of `src/main.go` (package `main`) and of the Go standard
library functions it calls (`strings.Split`, `strings.TrimSpace`,
`strconv.Atoi`, `strconv.ParseFloat`, the conversion `int(float64)`).

Conventions.
* Go `string` values are modelled by `String`; the library models work on the
  list of code points `s.data` (the strings reaching the scorer come out of
  `encoding/json`, hence are valid UTF-8).
* Go `int` is the 64-bit signed integer; values are `Int`, and the only place
  where the width matters (the range check of `strconv.Atoi`) is explicit.
* A `float64` is an exact rational, an infinity, or NaN (`F64`); the ordered
  comparisons of IEEE 754 are exact, so they are the comparisons of `ℚ`, and
  false as soon as one side is NaN.
* A fallible call `(v, err)` is an `Option`: `none` stands for `err != nil`.
-/

namespace Ksense

/-! ## Go standard library: strings -/

/-- Split of a code-point list at every occurrence of `sep`: the model of
`strings.Split(s, sep)` for a one-character separator. The result has one more
element than `s` has separators; the empty string gives one empty part. -/
def splitOn (sep : Char) : List Char → List (List Char)
  | [] => [[]]
  | c :: cs =>
    if c = sep then [] :: splitOn sep cs
    else
      match splitOn sep cs with
      | [] => [[c]]
      | p :: ps => (c :: p) :: ps

/-- White space in the sense of `unicode.IsSpace`: the code points with the
Unicode White_Space property. -/
def isSpace (c : Char) : Bool :=
  let n := c.toNat
  (9 ≤ n && n ≤ 13) || n == 32 || n == 0x85 || n == 0xA0 || n == 0x1680 ||
  (0x2000 ≤ n && n ≤ 0x200A) || n == 0x2028 || n == 0x2029 || n == 0x202F ||
  n == 0x205F || n == 0x3000

/-- Removal of the leading white space. -/
def trimLeft : List Char → List Char
  | [] => []
  | c :: cs => if isSpace c then trimLeft cs else c :: cs

/-- Model of `strings.TrimSpace`: leading and trailing white space removed. -/
def TrimSpace (s : List Char) : List Char :=
  (trimLeft (trimLeft s).reverse).reverse

/-! ## Go standard library: strconv.Atoi -/

/-- Value of a decimal digit, `none` for any other character. -/
def digitVal (c : Char) : Option Nat :=
  let n := c.toNat
  if 48 ≤ n ∧ n ≤ 57 then some (n - 48) else none

/-- Digits read left to right onto the accumulator `acc`; `none` as soon as a
character is not a decimal digit. -/
def digitsFrom (acc : Nat) : List Char → Option Nat
  | [] => some acc
  | c :: cs =>
    match digitVal c with
    | none => none
    | some d => digitsFrom (acc * 10 + d) cs

/-- A non-empty run of decimal digits and its value. -/
def parseDigits : List Char → Option Nat
  | [] => none
  | cs => digitsFrom 0 cs

/-- Least value of the 64-bit `int`. -/
def minInt64 : Int := -(2 ^ 63)

/-- Greatest value of the 64-bit `int`. -/
def maxInt64 : Int := 2 ^ 63 - 1

/-- Model of `strconv.Atoi`: an optional sign, then one or more decimal
digits, nothing else (no blanks, no underscores); the value has to fit the
64-bit `int`, otherwise the call fails (`ErrRange`). -/
def Atoi (s : List Char) : Option Int :=
  match s with
  | [] => none
  | c :: cs =>
    let neg := c.toNat == 45
    let ds := if c.toNat == 45 || c.toNat == 43 then cs else c :: cs
    match parseDigits ds with
    | none => none
    | some n =>
      let v : Int := if neg then -(n : Int) else (n : Int)
      if minInt64 ≤ v ∧ v ≤ maxInt64 then some v else none

/-! ## The float64 values -/

/-- A `float64`: a finite value (an exact rational; the two zeros are not
told apart, they compare equal), an infinity, or NaN. -/
inductive F64 where
  | finite (q : ℚ)
  | posInf
  | negInf
  | nan
  deriving DecidableEq

/-- The Go comparison `a <= b` on `float64`: false when an operand is NaN. -/
def F64.le : F64 → F64 → Bool
  | .finite a, .finite b => decide (a ≤ b)
  | .finite _, .posInf => true
  | .finite _, .negInf => false
  | .posInf, .posInf => true
  | .posInf, .finite _ => false
  | .posInf, .negInf => false
  | .negInf, .finite _ => true
  | .negInf, .posInf => true
  | .negInf, .negInf => true
  | .nan, _ => false
  | .finite _, .nan => false
  | .posInf, .nan => false
  | .negInf, .nan => false

/-- The Go comparison `a >= b` on `float64`. -/
def F64.ge (a b : F64) : Bool := F64.le b a

/-- The Go comparison `a > b` on `float64`: false when an operand is NaN. -/
def F64.gt (a b : F64) : Bool := F64.le b a && !F64.le a b

/-- Floor of the binary logarithm, by halving (`fuel` bounds the halvings). -/
def log2Fuel : Nat → Nat → Nat
  | 0, _ => 0
  | fuel + 1, n => if n < 2 then 0 else 1 + log2Fuel fuel (n / 2)

/-- Floor of the binary logarithm of a natural number (0 at 0). -/
def natLog2 (n : Nat) : Nat := log2Fuel n n

/-- The test `2 ^ e ≤ n / d`, for `d` positive, without division. -/
def geTwoPow (n d : Nat) (e : Int) : Bool :=
  if 0 ≤ e then decide (d * 2 ^ e.toNat ≤ n) else decide (d ≤ n * 2 ^ (-e).toNat)

/-- Floor of the binary logarithm of the positive rational `n / d`. -/
def ratLog2 (n d : Nat) : Int :=
  let e0 : Int := (natLog2 n : Int) - (natLog2 d : Int)
  if geTwoPow n d e0 then e0 else e0 - 1

/-- The value `m * 2 ^ p` as a rational. -/
def scaleTwo (m : Nat) (p : Int) : ℚ :=
  if 0 ≤ p then ((m * 2 ^ p.toNat : Nat) : ℚ) else mkRat (m : Int) (2 ^ (-p).toNat)

/-- IEEE 754 binary64 rounding (to nearest, ties to even) of the rational
`± n / d`, `d` positive: 53 significant bits, least exponent of a unit in the
last place `-1074` (gradual underflow, down to zero). `none` when the rounded
magnitude reaches `2 ^ 1024`: the overflow that `strconv` reports as
`ErrRange`. -/
def roundF64 (neg : Bool) (n d : Nat) : Option F64 :=
  if n = 0 then some (.finite 0)
  else
    let e := ratLog2 n d
    let p : Int := if e - 52 < -1074 then -1074 else e - 52
    let num : Nat := if 0 ≤ p then n else n * 2 ^ (-p).toNat
    let den : Nat := if 0 ≤ p then d * 2 ^ p.toNat else d
    let q := num / den
    let r := num % den
    let m := if den < 2 * r ∨ (2 * r = den ∧ q % 2 = 1) then q + 1 else q
    if 0 ≤ p ∧ 2 ^ 1024 ≤ m * 2 ^ p.toNat then none
    else some (.finite (if neg then -(scaleTwo m p) else scaleTwo m p))

/-- The `float64` constant `99.5` (exact). -/
def f64_99_5 : F64 := .finite (199 / 2)

/-- The `float64` constant `99.6`: the binary64 value nearest to the decimal,
`0x1.8e66666666666p+6`. -/
def f64_99_6 : F64 := .finite (3504363460047667 / 35184372088832)

/-- The `float64` constant `100.9`: the binary64 value nearest to the decimal,
`0x1.939999999999ap+6`. -/
def f64_100_9 : F64 := .finite (3550103143763149 / 35184372088832)

/-! ## Go standard library: strconv.ParseFloat -/

/-- ASCII upper-case letters mapped to lower case, as in
`commonPrefixLenIgnoreCase`. -/
def asciiLower (c : Char) : Char :=
  if 65 ≤ c.toNat ∧ c.toNat ≤ 90 then Char.ofNat (c.toNat + 32) else c

/-- Length of the common beginning of `s`, letters lower-cased, and `pat`. -/
def commonPrefixLenIgnoreCase : List Char → List Char → Nat
  | c :: s, p :: pat =>
    if asciiLower c = p then 1 + commonPrefixLenIgnoreCase s pat else 0
  | _, _ => 0

/-- The infinity branch of `special`: `n` characters of `s` are consumed when
`s` starts, ignoring case, with `inf` or `infinity`. -/
def specialInf (negative : Bool) (nsign : Nat) (s : List Char) : Option (F64 × Nat) :=
  let n0 := commonPrefixLenIgnoreCase s "infinity".data
  let n := if 3 < n0 ∧ n0 < 8 then 3 else n0
  if n = 3 ∨ n = 8 then some (if negative then F64.negInf else F64.posInf, nsign + n)
  else none

/-- Model of `strconv`'s `special`: the value and the number of characters
read when `s` begins with a (signed) infinity or with `nan`. -/
def special (s : List Char) : Option (F64 × Nat) :=
  match s with
  | [] => none
  | c :: cs =>
    if c = '+' ∨ c = '-' then specialInf (c = '-') 1 cs
    else if c = 'i' ∨ c = 'I' then specialInf false 0 s
    else if c = 'n' ∨ c = 'N' then
      if commonPrefixLenIgnoreCase s "nan".data = 3 then some (F64.nan, 3) else none
    else none

/-- The byte lower-casing of `strconv`: `c | 0x20`. -/
def lower (c : Char) : Nat := c.toNat ||| 0x20

/-- Value of a hexadecimal letter digit `a`-`f` / `A`-`F`. -/
def hexLetterVal (c : Char) : Option Nat :=
  if 97 ≤ lower c ∧ lower c ≤ 102 then some (lower c - 97 + 10) else none

/-- State of the mantissa scan of `readFloat`. -/
structure Scan where
  /-- value of the significant digits read so far (leading zeros dropped) -/
  mant : Nat
  /-- number of significant digits read so far -/
  nd : Nat
  /-- position of the point, counted in digits -/
  dp : Int
  sawdot : Bool
  sawdigits : Bool
  underscores : Bool

/-- The digit loop of `readFloat`: it stops at the first character that is
neither an underscore, a first point, nor a digit of the base. -/
def scanMantissa (hex : Bool) (st : Scan) : List Char → Scan × List Char
  | [] => (st, [])
  | c :: cs =>
    if c = '_' then scanMantissa hex { st with underscores := true } cs
    else if c = '.' then
      if st.sawdot then (st, c :: cs)
      else scanMantissa hex { st with sawdot := true, dp := st.nd } cs
    else
      match digitVal c with
      | some v =>
        if c = '0' ∧ st.nd = 0 then
          scanMantissa hex { st with sawdigits := true, dp := st.dp - 1 } cs
        else
          scanMantissa hex
            { st with sawdigits := true, nd := st.nd + 1,
                      mant := st.mant * (if hex then 16 else 10) + v } cs
      | none =>
        match (if hex then hexLetterVal c else none) with
        | some v =>
          scanMantissa hex
            { st with sawdigits := true, nd := st.nd + 1, mant := st.mant * 16 + v } cs
        | none => (st, c :: cs)

/-- The exponent digit loop of `readFloat`: digits and underscores; the
exponent stops growing once it has reached 10000. -/
def scanExp (e : Nat) (und : Bool) : List Char → Nat × Bool × List Char
  | [] => (e, und, [])
  | c :: cs =>
    if c = '_' then scanExp e true cs
    else
      match digitVal c with
      | some v => scanExp (if e < 10000 then e * 10 + v else e) und cs
      | none => (e, und, c :: cs)

/-- Result of `readFloat`: the number read is `± mant * 10 ^ exp`, or
`± mant * 2 ^ exp` for a hexadecimal literal. -/
structure ReadFloat where
  neg : Bool
  hex : Bool
  mant : Nat
  exp : Int
  underscores : Bool
  /-- what follows the characters read -/
  rest : List Char

/-- The optional exponent of `readFloat`, after the mantissa scan `st`
(`dp` already scaled for the base) has stopped before `rest`. -/
def readExponent (neg hex : Bool) (st : Scan) (dp : Int) (rest : List Char) :
    Option ReadFloat :=
  let finish (dp : Int) (und : Bool) (rest : List Char) : ReadFloat :=
    { neg := neg, hex := hex, mant := st.mant,
      exp := dp - (if hex then 4 * (st.nd : Int) else (st.nd : Int)),
      underscores := und, rest := rest }
  match rest with
  | c :: cs =>
    if lower c = (if hex then 112 else 101) then
      match cs with
      | [] => none
      | s0 :: cs1 =>
        let esign : Int := if s0 = '-' then -1 else 1
        let ds := if s0 = '+' ∨ s0 = '-' then cs1 else cs
        match ds with
        | [] => none
        | d0 :: _ =>
          match digitVal d0 with
          | none => none
          | some _ =>
            match scanExp 0 st.underscores ds with
            | (e, und, rest1) => some (finish (dp + (e : Int) * esign) und rest1)
    else if hex then none
    else some (finish dp st.underscores rest)
  | [] => if hex then none else some (finish dp st.underscores [])

/-- Model of `strconv`'s `readFloat`: optional sign, optional `0x`, digits
with at most one point, optional exponent (mandatory after `0x`). -/
def readFloat (s : List Char) : Option ReadFloat :=
  match s with
  | [] => none
  | c :: cs =>
    let neg : Bool := c = '-'
    let body := if c = '+' ∨ c = '-' then cs else s
    let hex : Bool :=
      match body with
      | z :: x :: _ :: _ => decide (z = '0') && decide (lower x = 120)
      | _ => false
    let digits := if hex then body.drop 2 else body
    match scanMantissa hex ⟨0, 0, 0, false, false, false⟩ digits with
    | (st, rest) =>
      if st.sawdigits = false then none
      else
        let dp0 : Int := if st.sawdot then st.dp else (st.nd : Int)
        let dp : Int := if hex then dp0 * 4 else dp0
        readExponent neg hex st dp rest

/-- Model of `strconv`'s `underscoreOK`: an underscore only between two
digits, or between a base prefix and a digit. The state `last` is `'0'` after
a digit (or a base prefix), `'_'` after an underscore, `'!'` otherwise. -/
def underscoreLoop (hex : Bool) (last : Char) : List Char → Bool
  | [] => last ≠ '_'
  | c :: cs =>
    if (digitVal c).isSome ∨ (hex = true ∧ (hexLetterVal c).isSome) then
      underscoreLoop hex '0' cs
    else if c = '_' then
      if last ≠ '0' then false else underscoreLoop hex '_' cs
    else if last = '_' then false
    else underscoreLoop hex '!' cs

/-- Model of `strconv`'s `underscoreOK`. -/
def underscoreOK (s : List Char) : Bool :=
  let s1 :=
    match s with
    | c :: cs => if c = '-' ∨ c = '+' then cs else s
    | [] => s
  match s1 with
  | z :: b :: cs =>
    if z = '0' ∧ (lower b = 98 ∨ lower b = 111 ∨ lower b = 120) then
      underscoreLoop (lower b = 120) '0' cs
    else underscoreLoop false ' ' s1
  | _ => underscoreLoop false ' ' s1

/-- Model of `strconv.ParseFloat(s, 64)`: the special values, or a decimal or
hexadecimal floating-point literal of the Go syntax that makes up the whole
string, rounded to the nearest `float64`. `none` is a non-nil error:
`ErrSyntax`, or `ErrRange` when the literal rounds to an infinity. -/
def ParseFloat (s : List Char) : Option F64 :=
  match special s with
  | some (v, n) => if n = s.length then some v else none
  | none =>
    match readFloat s with
    | none => none
    | some r =>
      if r.rest ≠ [] then none
      else if r.underscores = true ∧ underscoreOK s = false then none
      else if r.hex then
        if 0 ≤ r.exp then roundF64 r.neg (r.mant * 2 ^ r.exp.toNat) 1
        else roundF64 r.neg r.mant (2 ^ (-r.exp).toNat)
      else
        if 0 ≤ r.exp then roundF64 r.neg (r.mant * 10 ^ r.exp.toNat) 1
        else roundF64 r.neg r.mant (10 ^ (-r.exp).toNat)

/-! ## The scorer: blood pressure -/

/-- Embedding of `calculateBP` (main.go, lines 72-109). -/
def calculateBP (bpStr : String) : Int × Bool :=
  match splitOn '/' bpStr.data with
  | [p0, p1] =>
    match Atoi (TrimSpace p0), Atoi (TrimSpace p1) with
    | some sys, some dia =>
      let sysStage : Int :=
        if sys < 120 then 1
        else if sys ≤ 129 then 2
        else if sys ≤ 139 then 3
        else 4
      let diaStage : Int :=
        if dia < 80 then 1
        else if dia ≤ 89 then 3
        else 4
      if sysStage > diaStage then (sysStage, false) else (diaStage, false)
    | _, _ => (0, true)
  | _ => (0, true)

/-! ## The scorer: dynamically typed fields -/

/-- The dynamic value of an `interface{}` field after `encoding/json` has
decoded it: `nil`, a `bool`, a `float64` (every JSON number), a `string`, or a
composite (`[]interface{}`, `map[string]interface{}`; no case of the two type
switches looks inside one). -/
inductive Value where
  | null
  | bool (b : Bool)
  | number (v : F64)
  | str (s : String)
  | composite
  deriving DecidableEq

/-- Embedding of the struct `Patient` (main.go, lines 21-27). -/
structure Patient where
  ID : String
  Name : String
  Age : Value
  Temperature : Value
  BloodPressure : String
  deriving DecidableEq

/-- Embedding of `getFloat` (main.go, lines 150-159). -/
def getFloat (unk : Value) : Option F64 :=
  match unk with
  | .number v => some v
  | .str v => ParseFloat v.data
  | _ => none

/-- The conversion `int(v)` of a `float64`: the fraction is discarded
(truncation towards zero). When the truncated value does not fit the 64-bit
`int` (or `v` is an infinity or NaN) Go leaves the result to the
implementation: it is `conv v`. -/
def f64ToInt (conv : F64 → Int) (v : F64) : Int :=
  match v with
  | .finite q =>
    let t := Int.tdiv q.num (q.den : Int)
    if minInt64 ≤ t ∧ t ≤ maxInt64 then t else conv v
  | _ => conv v

/-- Embedding of `getInt` (main.go, lines 161-170). -/
def getInt (conv : F64 → Int) (unk : Value) : Option Int :=
  match unk with
  | .number v => some (f64ToInt conv v)
  | .str v => Atoi v.data
  | _ => none

/-- Embedding of `calculateTemp` (main.go, lines 111-126). -/
def calculateTemp (t : Value) : F64 × Int × Bool :=
  match getFloat t with
  | none => (.finite 0, 0, true)
  | some val =>
    if F64.le val f64_99_5 then (val, 0, false)
    else if F64.le val f64_100_9 then (val, 1, false)
    else (val, 2, false)

/-- Embedding of `calculateAge` (main.go, lines 128-147). -/
def calculateAge (conv : F64 → Int) (a : Value) : Int × Bool :=
  match getInt conv a with
  | none => (0, true)
  | some val =>
    if val > 65 then (2, false)
    else if val ≥ 40 ∧ val ≤ 65 then (1, false)
    else if val < 40 then (1, false)
    else (0, false)

/-- Embedding of `processPatient` (main.go, lines 60-69): the total score, the
invalid flag and the fever flag. -/
def processPatient (conv : F64 → Int) (p : Patient) : Int × Bool × Bool :=
  let (bpScore, bpInvalid) := calculateBP p.BloodPressure
  let (temp, tempScore, tempInvalid) := calculateTemp p.Temperature
  let (ageScore, ageInvalid) := calculateAge conv p.Age
  let isInvalid := bpInvalid || tempInvalid || ageInvalid
  let hasFever := !tempInvalid && F64.ge temp f64_99_6
  (bpScore + tempScore + ageScore, isInvalid, hasFever)

/-! ## The orchestrator loop -/

/-- The three lists that `main` builds (main.go, lines 39-41). -/
structure Buckets where
  highRisk : List String
  feverPatients : List String
  qualityIssues : List String
  deriving DecidableEq

/-- One iteration of the loop of `main` (main.go, lines 43-55). -/
def mainStep (conv : F64 → Int) (acc : Buckets) (p : Patient) : Buckets :=
  let (totalScore, isInvalid, hasFever) := processPatient conv p
  let qualityIssues := if isInvalid then acc.qualityIssues ++ [p.ID] else acc.qualityIssues
  let feverPatients := if hasFever then acc.feverPatients ++ [p.ID] else acc.feverPatients
  let highRisk := if totalScore ≥ 4 then acc.highRisk ++ [p.ID] else acc.highRisk
  { highRisk := highRisk, feverPatients := feverPatients, qualityIssues := qualityIssues }

/-- The loop of `main` over the collected patients, from three empty lists:
the arguments of `submitAssessment`. -/
def mainLoop (conv : F64 → Int) (allPatients : List Patient) : Buckets :=
  allPatients.foldl (mainStep conv) ⟨[], [], []⟩

/-! ## The collector -/

/-- The body of a page response as `json.NewDecoder(..).Decode(&apiRes)` sees
it.
* `malformed`: no JSON value can be read (not JSON, truncated, read error) or
  the value is not an object: `Decode` returns an error and stores nothing.
* `object data hasNext`: a JSON object that decodes without error, in which
  the `data` array and the `pagination.hasNext` boolean are each present or
  not.
* `typeError data hasNext`: a JSON object in which some field has a type that
  does not fit the struct: `Decode` returns an error, but only after it has
  stored the fields that do fit; `data` and `hasNext` are what `apiRes` holds
  then (the zero value for a field that was absent or did not fit). -/
inductive Body where
  | malformed
  | object (data : Option (List Patient)) (hasNext : Option Bool)
  | typeError (data : List Patient) (hasNext : Bool)

/-- Embedding of the struct `APIResponse` (main.go, lines 29-34). -/
structure APIResponse where
  Data : List Patient
  HasNext : Bool

/-- The content of `apiRes` after the decode whose error is dropped
(main.go, lines 187-188): what the body does not give keeps its zero value. -/
def decodeBody : Body → APIResponse
  | .malformed => ⟨[], false⟩
  | .object data hasNext => ⟨data.getD [], hasNext.getD false⟩
  | .typeError data hasNext => ⟨data, hasNext⟩

/-- Whether the `Decode` call of main.go, line 188 returns a non-nil error
(which the source drops). -/
def decodeErr : Body → Bool
  | .malformed => true
  | .object _ _ => false
  | .typeError _ _ => true

/-- What `client.Do(req)` returns: an error, or a response with a status code
and a body. -/
inductive Response where
  | transportErr
  | http (status : Int) (body : Body)

/-- The retry condition of the loop (main.go, line 182). -/
def isTransient : Response → Bool
  | .transportErr => true
  | .http status _ => decide (status ≥ 500) || decide (status = 429)

/-- State of the loop of `fetchAllPatients`: the page to request and the
records accumulated. -/
structure FetchState where
  page : Nat
  list : List Patient

/-- Outcome of one iteration of the loop of `fetchAllPatients`. -/
inductive Outcome where
  | continue (s : FetchState)
  | done (list : List Patient)

/-- One iteration of the loop of `fetchAllPatients` (main.go, lines 177-196)
on the response `r` to the request for page `s.page`. -/
def fetchStep (s : FetchState) (r : Response) : Outcome :=
  match r with
  | .transportErr => .continue s
  | .http status body =>
    if status ≥ 500 ∨ status = 429 then .continue s
    else
      let apiRes := decodeBody body
      let list := s.list ++ apiRes.Data
      if !apiRes.HasNext then .done list
      else .continue { page := s.page + 1, list := list }

/-- The loop of `fetchAllPatients` against the upstream `up`, where
`up page i` answers the request number `i` (from 0) for `page`; `attempt`
counts the requests already made for the current page. The Go loop has no
bound: `fuel` bounds the number of requests, `none` when it runs out. -/
def fetchLoop (up : Nat → Nat → Response) : Nat → Nat → FetchState → Option (List Patient)
  | 0, _, _ => none
  | fuel + 1, attempt, s =>
    match fetchStep s (up s.page attempt) with
    | .done list => some list
    | .continue s1 =>
      fetchLoop up fuel (if s1.page = s.page then attempt + 1 else 0) s1

/-- Embedding of `fetchAllPatients` (main.go, lines 172-198): the loop from
page 1 and the empty list. -/
def fetchAllPatients (up : Nat → Nat → Response) (fuel : Nat) : Option (List Patient) :=
  fetchLoop up fuel 0 { page := 1, list := [] }

/-- The configuration of the loop of `fetchAllPatients` after `k` iterations
that did not return, started with the attempt counter `attempt` in the state
`s`: the attempt counter and the state before the next request; `none` when
one of the `k` iterations returned. -/
def fetchConfig (up : Nat → Nat → Response) : Nat → Nat → FetchState → Option (Nat × FetchState)
  | 0, attempt, s => some (attempt, s)
  | k + 1, attempt, s =>
    match fetchStep s (up s.page attempt) with
    | .done _ => none
    | .continue s1 => fetchConfig up k (if s1.page = s.page then attempt + 1 else 0) s1

/-! ## The rubric in the words of the specification -/

/-- Systolic stage as specified: `<120` is 1, `120-129` is 2, `130-139` is 3,
`>=140` is 4 (0 would mean that no band applies). -/
def specSysStage (s : Int) : Int :=
  if s < 120 then 1
  else if 120 ≤ s ∧ s ≤ 129 then 2
  else if 130 ≤ s ∧ s ≤ 139 then 3
  else if s ≥ 140 then 4
  else 0

/-- Diastolic stage as specified: `<80` is 1, `80-89` is 3, `>=90` is 4
(0 would mean that no band applies). -/
def specDiaStage (d : Int) : Int :=
  if d < 80 then 1
  else if 80 ≤ d ∧ d ≤ 89 then 3
  else if d ≥ 90 then 4
  else 0

/-- A blood-pressure string of the form `<int>/<int>`: the split at `/` gives
exactly two parts, and each, white space trimmed, is read by `strconv.Atoi`. -/
def bpParses (bpStr : String) : Prop :=
  ∃ p0 p1 s d, splitOn '/' bpStr.data = [p0, p1] ∧
    Atoi (TrimSpace p0) = some s ∧ Atoi (TrimSpace p1) = some d

/-- Truncation towards zero of a rational, stated with floor and ceiling. -/
def specTrunc (q : ℚ) : Int := if 0 ≤ q then ⌊q⌋ else ⌈q⌉

/-- The decoded content of a response: what `apiRes` holds when the loop of
`fetchAllPatients` does not retry it (nothing for a transport error). -/
def responsePage : Response → APIResponse
  | .transportErr => ⟨[], false⟩
  | .http _ body => decodeBody body

/-- A mock upstream for two pages: page 1 answers 503, then a transport error,
then 200 with one record and `hasNext = true`; page 2 answers 429, then 200
with one record and `hasNext = false`. -/
def mockUpstream (a b : Patient) (page i : Nat) : Response :=
  if page = 1 then
    if i = 0 then .http 503 .malformed
    else if i = 1 then .transportErr
    else .http 200 (.object (some [a]) (some true))
  else
    if i = 0 then .http 429 .malformed
    else .http 200 (.object (some [b]) (some false))

/-- An explicit signal of completion: a response with a success status (2xx)
whose body decodes and carries the field `pagination.hasNext` with the value
`false`. -/
def explicitCompletion : Response → Bool
  | .http status (.object _ (some false)) => decide (200 ≤ status) && decide (status < 300)
  | _ => false

/-- An upstream that answers every request with status 404 and a body that is
not JSON. -/
def notFoundUpstream (_page _i : Nat) : Response := .http 404 .malformed

/-! ## The scorer with the run-time checks of Go made explicit -/

/-- The stage computation of `calculateBP` (main.go, lines 84-108). -/
def bpStages (sys dia : Int) : Int × Bool :=
  let sysStage : Int :=
    if sys < 120 then 1
    else if sys ≤ 129 then 2
    else if sys ≤ 139 then 3
    else 4
  let diaStage : Int :=
    if dia < 80 then 1
    else if dia ≤ 89 then 3
    else 4
  if sysStage > diaStage then (sysStage, false) else (diaStage, false)

/-- The function `calculateBP` (main.go, lines 72-109) with its two slice
accesses checked as the Go run time checks them: `parts[0]` and `parts[1]`
panic when the index is not below `len(parts)`; `none` is that panic. -/
def calculateBPChecked (bpStr : String) : Option (Int × Bool) :=
  let parts := splitOn '/' bpStr.data
  if parts.length ≠ 2 then some (0, true)
  else
    match parts[0]?, parts[1]? with
    | some p0, some p1 =>
      match Atoi (TrimSpace p0), Atoi (TrimSpace p1) with
      | some sys, some dia => some (bpStages sys dia)
      | _, _ => some (0, true)
    | _, _ => none

/-- The function `processPatient` (main.go, lines 60-69) over
`calculateBPChecked`: `none` when a call panics. The type switches of
`getFloat` and `getInt` have a `default` case, the conversion `int(v)` and the
`strconv` calls do not panic. -/
def processPatientChecked (conv : F64 → Int) (p : Patient) : Option (Int × Bool × Bool) :=
  match calculateBPChecked p.BloodPressure with
  | none => none
  | some (bpScore, bpInvalid) =>
    let (temp, tempScore, tempInvalid) := calculateTemp p.Temperature
    let (ageScore, ageInvalid) := calculateAge conv p.Age
    let isInvalid := bpInvalid || tempInvalid || ageInvalid
    let hasFever := !tempInvalid && F64.ge temp f64_99_6
    some (bpScore + tempScore + ageScore, isInvalid, hasFever)

/-- Value of a run of decimal digits read in base 10, as a left fold. -/
def specDigitsValue (ds : List Char) : Nat :=
  ds.foldl (fun acc c => acc * 10 + (c.toNat - 48)) 0

/-- A base-10 integer literal of value `v` that fits the 64-bit `int`: one or
more digits `0`-`9` (code points 48 to 57), alone or after one sign `+` or
`-`, and nothing else. -/
def specIntLiteral (s : List Char) (v : Int) : Prop :=
  ∃ ds : List Char, ds ≠ [] ∧ (∀ c ∈ ds, 48 ≤ c.toNat ∧ c.toNat ≤ 57) ∧
    ((s = ds ∧ v = (specDigitsValue ds : Int)) ∨
      (s = '+' :: ds ∧ v = (specDigitsValue ds : Int)) ∨
      (s = '-' :: ds ∧ v = -(specDigitsValue ds : Int))) ∧
    minInt64 ≤ v ∧ v ≤ maxInt64

/-- The result of `int(v)` on amd64 for a `float64` that the 64-bit `int`
cannot represent (NaN and the infinities included): the conversion instruction
gives the "integer indefinite" value, the least `int`. -/
def convAmd64 (_v : F64) : Int := minInt64

/-! ## Helper lemmas -/

/-- The three thresholds of the scorer are the decimal constants of the source
rounded to `float64`. -/
theorem f64_constants :
    roundF64 false 995 10 = some f64_99_5 ∧ roundF64 false 996 10 = some f64_99_6 ∧
    roundF64 false 1009 10 = some f64_100_9 := by
  refine ⟨?_, ?_, ?_⟩ <;> decide!

/-- The split has one more part than the string has separators: exactly two
parts means exactly one `/`. -/
theorem splitOn_length (sep : Char) (s : List Char) :
    (splitOn sep s).length = s.count sep + 1 := by
  induction s with
  | nil => rfl
  | cons c cs ih =>
    unfold splitOn
    by_cases h : c = sep
    · subst h
      simp [ih]
    · rw [if_neg h, List.count_cons_of_ne (fun hh => h hh.symm)]
      cases hsp : splitOn sep cs with
      | nil => rw [hsp] at ih; simp at ih
      | cons q qs => rw [hsp] at ih; simpa using ih

theorem calculateBP_of_parts {bpStr : String} {p0 p1 : List Char} {s d : Int}
    (hsplit : splitOn '/' bpStr.data = [p0, p1])
    (hs : Atoi (TrimSpace p0) = some s) (hd : Atoi (TrimSpace p1) = some d) :
    calculateBP bpStr = (max (specSysStage s) (specDiaStage d), false) := by
  unfold calculateBP specSysStage specDiaStage
  rw [hsplit]
  simp only [hs, hd]
  split_ifs <;> first | rfl | omega

theorem calculateBP_of_not_parses {bpStr : String} (h : ¬ bpParses bpStr) :
    calculateBP bpStr = (0, true) := by
  unfold calculateBP
  split
  · next p0 p1 hsplit =>
    split
    · next s d hs hd => exact absurd ⟨p0, p1, s, d, hsplit, hs, hd⟩ h
    · rfl
  · rfl

theorem calculateBP_invalid_iff (bpStr : String) :
    (calculateBP bpStr).2 = true ↔ ¬ bpParses bpStr := by
  constructor
  · rintro h ⟨p0, p1, s, d, hsplit, hs, hd⟩
    rw [calculateBP_of_parts hsplit hs hd] at h
    simp at h
  · intro h
    rw [calculateBP_of_not_parses h]

theorem processPatient_eq (conv : F64 → Int) (p : Patient) :
    processPatient conv p =
      ((calculateBP p.BloodPressure).1 + (calculateTemp p.Temperature).2.1 +
          (calculateAge conv p.Age).1,
        ((calculateBP p.BloodPressure).2 || (calculateTemp p.Temperature).2.2 ||
          (calculateAge conv p.Age).2),
        (!(calculateTemp p.Temperature).2.2 &&
          F64.ge (calculateTemp p.Temperature).1 f64_99_6)) := rfl

theorem calculateTemp_of_some {t : Value} {v : F64} (h : getFloat t = some v) :
    calculateTemp t =
      (v, if F64.le v f64_99_5 then 0 else if F64.le v f64_100_9 then 1 else 2, false) := by
  unfold calculateTemp
  rw [h]
  simp only
  split_ifs <;> rfl

theorem calculateTemp_of_none {t : Value} (h : getFloat t = none) :
    calculateTemp t = (.finite 0, 0, true) := by
  unfold calculateTemp
  rw [h]

theorem F64.le_trans' {a b c : F64} (hab : F64.le a b = true) (hbc : F64.le b c = true) :
    F64.le a c = true := by
  cases a <;> cases b <;> cases c <;> simp_all [F64.le]
  exact le_trans hab hbc

theorem f64_99_5_lt_99_6 : F64.le f64_99_6 f64_99_5 = false := by
  simp only [F64.le, f64_99_6, f64_99_5, decide_eq_false_iff_not, not_le]
  norm_num

/-! ## Claims -/

/-- C1: for every blood-pressure string whose split at `/` has exactly two
parts that `strconv.Atoi` reads after trimming, as `s` and `d`, `calculateBP`
returns the greater of the specified systolic and diastolic stages, with the
invalid flag false. -/
theorem calculateBP_valid (bpStr : String) (p0 p1 : List Char) (s d : Int)
    (hsplit : splitOn '/' bpStr.data = [p0, p1])
    (hs : Atoi (TrimSpace p0) = some s) (hd : Atoi (TrimSpace p1) = some d) :
    calculateBP bpStr = (max (specSysStage s) (specDiaStage d), false) :=
  calculateBP_of_parts hsplit hs hd

/-- C1 at the two examples of the specification: `117/76` has stage 1
(systolic 1, diastolic 1) and `125/95` has stage 4 (systolic 2, diastolic 4). -/
theorem calculateBP_valid_witness :
    (specSysStage 117 = 1 ∧ specDiaStage 76 = 1 ∧ calculateBP "117/76" = (1, false)) ∧
    (specSysStage 125 = 2 ∧ specDiaStage 95 = 4 ∧ calculateBP "125/95" = (4, false)) :=
  ⟨⟨by decide, by decide,
      calculateBP_valid "117/76" "117".data "76".data 117 76 (by decide) (by decide) (by decide)⟩,
    ⟨by decide, by decide,
      calculateBP_valid "125/95" "125".data "95".data 125 95 (by decide) (by decide) (by decide)⟩⟩

/-- C2: for every record whose blood-pressure string is not `<int>/<int>` (the
split at `/` does not give exactly two parts, or `strconv.Atoi` rejects a
trimmed part), `calculateBP` returns stage 0 with the invalid flag set and
`processPatient` reports a data-quality issue. -/
theorem calculateBP_invalid (conv : F64 → Int) (p : Patient)
    (h : (splitOn '/' p.BloodPressure.data).length ≠ 2 ∨
      ∃ part ∈ splitOn '/' p.BloodPressure.data, Atoi (TrimSpace part) = none) :
    calculateBP p.BloodPressure = (0, true) ∧ (processPatient conv p).2.1 = true := by
  have hnot : ¬ bpParses p.BloodPressure := by
    rintro ⟨p0, p1, s, d, hsplit, hs, hd⟩
    rcases h with h | ⟨part, hmem, hpart⟩
    · simp [hsplit] at h
    · rw [hsplit] at hmem
      simp only [List.mem_cons, List.mem_singleton, List.not_mem_nil, or_false] at hmem
      rcases hmem with rfl | rfl
      · rw [hs] at hpart; cases hpart
      · rw [hd] at hpart; cases hpart
  have hbp := calculateBP_of_not_parses hnot
  refine ⟨hbp, ?_⟩
  rw [processPatient_eq, hbp]
  rfl

/-- C2 at the empty string (one part), at `1/2/3` (three parts) and at
`120/abc` (a part that is not a number), in a record that is otherwise
valid. -/
theorem calculateBP_invalid_witness :
    (calculateBP "" = (0, true) ∧
      (processPatient (fun _ => 0) ⟨"p", "", .number (.finite 50), .number (.finite 98), ""⟩).2.1
        = true) ∧
    (calculateBP "1/2/3" = (0, true) ∧
      (processPatient (fun _ => 0)
        ⟨"p", "", .number (.finite 50), .number (.finite 98), "1/2/3"⟩).2.1 = true) ∧
    (calculateBP "120/abc" = (0, true) ∧
      (processPatient (fun _ => 0)
        ⟨"p", "", .number (.finite 50), .number (.finite 98), "120/abc"⟩).2.1 = true) :=
  ⟨calculateBP_invalid (fun _ => 0) ⟨"p", "", .number (.finite 50), .number (.finite 98), ""⟩
      (Or.inl (by decide)),
    calculateBP_invalid (fun _ => 0)
      ⟨"p", "", .number (.finite 50), .number (.finite 98), "1/2/3"⟩ (Or.inl (by decide)),
    calculateBP_invalid (fun _ => 0)
      ⟨"p", "", .number (.finite 50), .number (.finite 98), "120/abc"⟩
      (Or.inr ⟨"abc".data, by decide, by decide⟩)⟩

/-- C3: a temperature that coerces to the number `v` is never flagged, and its
stage is 0 when `v <= 99.5`, 1 when `99.6 <= v <= 100.9`, 2 when `v > 100.9`
(the comparisons and constants of Go's `float64`); a temperature that does not
coerce gives stage 0 with the invalid flag set. The examples: 99.5 gives 0,
99.6 gives 1, the string `101.2` gives 2, `null` gives stage 0 and invalid. -/
theorem calculateTemp_stages :
    (∀ (t : Value) (v : F64), getFloat t = some v →
      (calculateTemp t).1 = v ∧ (calculateTemp t).2.2 = false ∧
      (F64.le v f64_99_5 = true → (calculateTemp t).2.1 = 0) ∧
      (F64.ge v f64_99_6 = true → F64.le v f64_100_9 = true → (calculateTemp t).2.1 = 1) ∧
      (F64.gt v f64_100_9 = true → (calculateTemp t).2.1 = 2)) ∧
    (∀ t : Value, getFloat t = none → calculateTemp t = (.finite 0, 0, true)) ∧
    getFloat .null = none ∧ getFloat (.str "abc") = none ∧ getFloat (.bool true) = none ∧
    getFloat .composite = none ∧
    calculateTemp (.number f64_99_5) = (f64_99_5, 0, false) ∧
    calculateTemp (.number f64_99_6) = (f64_99_6, 1, false) ∧
    calculateTemp (.str "101.2") = (.finite (7121316910779597 / 70368744177664), 2, false) ∧
    calculateTemp .null = (.finite 0, 0, true) := by
  refine ⟨?_, fun t h => calculateTemp_of_none h, rfl, by decide, rfl, rfl,
    by decide!, by decide!, by decide!, rfl⟩
  intro t v h
  rw [calculateTemp_of_some h]
  refine ⟨rfl, rfl, ?_, ?_, ?_⟩
  · intro h0
    simp [h0]
  · intro h1 h2
    have h3 : F64.le v f64_99_5 = false := by
      cases h4 : F64.le v f64_99_5
      · rfl
      · have := F64.le_trans' h1 h4
        rw [f64_99_5_lt_99_6] at this
        cases this
    simp [h3, h2]
  · intro h1
    simp only [F64.gt, Bool.and_eq_true, Bool.not_eq_true'] at h1
    have h3 : F64.le v f64_99_5 = false := by
      cases h4 : F64.le v f64_99_5
      · rfl
      · have h5 : F64.le v f64_100_9 = true :=
          F64.le_trans' h4 (by simp only [F64.le, f64_99_5, f64_100_9, decide_eq_true_eq]; norm_num)
        rw [h1.2] at h5
        cases h5
    simp [h3, h1.2]

/-- C3 at the string `100.5`: it coerces to a number between 99.6 and 100.9,
so the stage is 1 and the record is not flagged. -/
theorem calculateTemp_stages_witness :
    (calculateTemp (.str "100.5")).1 = .finite (201 / 2) ∧
    (calculateTemp (.str "100.5")).2.2 = false ∧ (calculateTemp (.str "100.5")).2.1 = 1 :=
  have h := calculateTemp_stages.1 (.str "100.5") (.finite (201 / 2)) (by decide!)
  ⟨h.1, h.2.1, h.2.2.2.1 (by decide!) (by decide!)⟩

/-- C4: the fever flag of `processPatient` is true exactly when the temperature
coerced to a number and that number is `>= 99.6`; it is false whenever the
coercion fails. -/
theorem hasFever_iff (conv : F64 → Int) (p : Patient) :
    ((processPatient conv p).2.2 = true ↔
      ∃ v, getFloat p.Temperature = some v ∧ F64.ge v f64_99_6 = true) ∧
    (getFloat p.Temperature = none → (processPatient conv p).2.2 = false) := by
  rw [processPatient_eq]
  cases h : getFloat p.Temperature with
  | none => simp [calculateTemp_of_none h]
  | some v => simp [calculateTemp_of_some h]

/-- C4 at a record with temperature 101 (fever) and at a record whose
temperature is absent (no fever). -/
theorem hasFever_iff_witness :
    (processPatient (fun _ => 0) ⟨"p", "", .number (.finite 50), .number (.finite 101), "110/70"⟩).2.2
      = true ∧
    (processPatient (fun _ => 0) ⟨"p", "", .number (.finite 50), .null, "110/70"⟩).2.2 = false :=
  ⟨(hasFever_iff (fun _ => 0)
      ⟨"p", "", .number (.finite 50), .number (.finite 101), "110/70"⟩).1.2
      ⟨.finite 101, rfl, by decide!⟩,
    (hasFever_iff (fun _ => 0) ⟨"p", "", .number (.finite 50), .null, "110/70"⟩).2 rfl⟩

theorem tdiv_num_den (q : ℚ) : Int.tdiv q.num (q.den : Int) = specTrunc q := by
  unfold specTrunc
  have hden : (0 : Int) ≤ (q.den : Int) := Int.natCast_nonneg _
  split_ifs with h
  · rw [Int.tdiv_eq_ediv (Rat.num_nonneg.mpr h) hden, Rat.floor_def]
  · have hneg : 0 ≤ (-q).num := by
      rw [Rat.num_nonneg]
      linarith [not_le.mp h]
    have h1 : ⌈q⌉ = -⌊-q⌋ := by rw [← Int.ceil_neg, neg_neg]
    rw [h1, Rat.floor_def, Rat.den_neg_eq_den, ← Int.tdiv_eq_ediv hneg hden, Rat.num_neg_eq_neg_num,
      Int.neg_tdiv, neg_neg]

theorem calculateAge_of_some {conv : F64 → Int} {a : Value} {v : Int}
    (h : getInt conv a = some v) :
    calculateAge conv a = (if v > 65 then 2 else 1, false) := by
  unfold calculateAge
  rw [h]
  simp only
  split_ifs <;> first | rfl | omega

theorem calculateAge_of_none {conv : F64 → Int} {a : Value} (h : getInt conv a = none) :
    calculateAge conv a = (0, true) := by
  unfold calculateAge
  rw [h]

theorem getInt_number (conv : F64 → Int) (q : ℚ)
    (h1 : minInt64 ≤ specTrunc q) (h2 : specTrunc q ≤ maxInt64) :
    getInt conv (.number (.finite q)) = some (specTrunc q) := by
  simp only [getInt, f64ToInt, tdiv_num_den, h1, h2, and_self, if_true]

theorem calculateAge_number (conv : F64 → Int) (q : ℚ) (n : Int) (hq : specTrunc q = n)
    (h1 : minInt64 ≤ n) (h2 : n ≤ maxInt64) :
    calculateAge conv (.number (.finite q)) = (if n > 65 then 2 else 1, false) :=
  calculateAge_of_some (hq ▸ getInt_number conv q (hq ▸ h1) (hq ▸ h2))

theorem specTrunc_intCast (n : Int) : specTrunc (n : ℚ) = n := by
  unfold specTrunc
  split_ifs <;> simp

/-- C5 on the code: the `float64` 99.5625 (a JSON number that is exactly
representable) gets temperature stage 1 from `calculateTemp` while
`processPatient` reports no fever; the string `NaN` coerces, gets stage 2, and
reports no fever either. -/
theorem tempStage_without_fever (conv : F64 → Int) :
    roundF64 false 1593 16 = some (.finite (1593 / 16)) ∧
    (calculateTemp (.number (.finite (1593 / 16)))).2.1 = 1 ∧
    (processPatient conv
      ⟨"p", "", .number (.finite 50), .number (.finite (1593 / 16)), "110/70"⟩).2.2 = false ∧
    calculateTemp (.str "NaN") = (.nan, 2, false) ∧
    (processPatient conv ⟨"p", "", .number (.finite 50), .str "NaN", "110/70"⟩).2.2 = false := by
  refine ⟨by decide!, by decide!, ?_, by decide!, ?_⟩
  · rw [processPatient_eq]
    have h : calculateTemp (.number (.finite (1593 / 16))) = (.finite (1593 / 16), 1, false) := by
      decide!
    rw [h]
    show (!false && F64.ge (.finite (1593 / 16)) f64_99_6) = false
    decide!
  · rw [processPatient_eq]
    have h : calculateTemp (.str "NaN") = (.nan, 2, false) := by decide!
    rw [h]
    rfl

/-- C6: an age that coerces to the integer `v` scores 2 when `v > 65` and 1
otherwise, never flagged; the score is 0 exactly when the age does not coerce,
and then the flag is set, so that `(0, false)` is never returned; a float in
the range of `int` coerces to its truncation towards zero. The examples: 66
gives 2; 40, 65 and 39 give 1; `abc` gives 0 and invalid. -/
theorem calculateAge_points (conv : F64 → Int) :
    (∀ (a : Value) (v : Int), getInt conv a = some v →
      calculateAge conv a = (if v > 65 then 2 else 1, false)) ∧
    (∀ a : Value, (calculateAge conv a).1 = 0 ↔ getInt conv a = none) ∧
    (∀ a : Value, getInt conv a = none → calculateAge conv a = (0, true)) ∧
    (∀ a : Value, calculateAge conv a ≠ (0, false)) ∧
    (∀ q : ℚ, minInt64 ≤ specTrunc q → specTrunc q ≤ maxInt64 →
      getInt conv (.number (.finite q)) = some (specTrunc q)) ∧
    calculateAge conv (.number (.finite 66)) = (2, false) ∧
    calculateAge conv (.number (.finite 40)) = (1, false) ∧
    calculateAge conv (.number (.finite 65)) = (1, false) ∧
    calculateAge conv (.number (.finite 39)) = (1, false) ∧
    calculateAge conv (.number (.finite (131 / 2))) = (1, false) ∧
    calculateAge conv (.str "66") = (2, false) ∧
    calculateAge conv (.str "abc") = (0, true) := by
  have htrunc := getInt_number conv
  have hnum := calculateAge_number conv
  have hfl := specTrunc_intCast
  refine ⟨fun a v h => calculateAge_of_some h, ?_, fun a h => calculateAge_of_none h, ?_, htrunc,
    ?_, ?_, ?_, ?_, ?_, ?_, ?_⟩
  · intro a
    cases h : getInt conv a with
    | none => simp [calculateAge_of_none h]
    | some v =>
      rw [calculateAge_of_some h]
      split_ifs <;> simp
  · intro a
    cases h : getInt conv a with
    | none => simp [calculateAge_of_none h]
    | some v =>
      rw [calculateAge_of_some h]
      split_ifs <;> simp
  · exact hnum 66 66 (by exact_mod_cast hfl 66) (by decide) (by decide)
  · exact hnum 40 40 (by exact_mod_cast hfl 40) (by decide) (by decide)
  · exact hnum 65 65 (by exact_mod_cast hfl 65) (by decide) (by decide)
  · exact hnum 39 39 (by exact_mod_cast hfl 39) (by decide) (by decide)
  · refine hnum (131 / 2) 65 ?_ (by decide) (by decide)
    unfold specTrunc
    rw [if_pos (by norm_num), Int.floor_eq_iff]
    constructor <;> norm_num
  · exact calculateAge_of_some (v := 66) (show Atoi "66".data = some 66 by decide)
  · exact calculateAge_of_none (show Atoi "abc".data = none by decide)

/-- C6 at the age 70.5 given as a float: it is truncated to 70 and scores 2. -/
theorem calculateAge_points_witness :
    getInt (fun _ => 0) (.number (.finite (141 / 2))) = some 70 ∧
    calculateAge (fun _ => 0) (.number (.finite (141 / 2))) = (2, false) :=
  ⟨by decide!,
    (calculateAge_points (fun _ => 0)).1 (.number (.finite (141 / 2))) 70 (by decide!)⟩

/-- C7: the total score of `processPatient` is the sum of the three stages,
each a function of its own field only; a dimension that fails to parse
contributes exactly 0, so the total is then the sum of the other two stages,
which are the ones the record would get with that field valid. -/
theorem totalScore_sum (conv : F64 → Int) (p : Patient) :
    (processPatient conv p).1 =
      (calculateBP p.BloodPressure).1 + (calculateTemp p.Temperature).2.1 +
        (calculateAge conv p.Age).1 ∧
    (¬ bpParses p.BloodPressure →
      (calculateBP p.BloodPressure).1 = 0 ∧
      (processPatient conv p).1 =
        (calculateTemp p.Temperature).2.1 + (calculateAge conv p.Age).1) ∧
    (getFloat p.Temperature = none →
      (calculateTemp p.Temperature).2.1 = 0 ∧
      (processPatient conv p).1 =
        (calculateBP p.BloodPressure).1 + (calculateAge conv p.Age).1) ∧
    (getInt conv p.Age = none →
      (calculateAge conv p.Age).1 = 0 ∧
      (processPatient conv p).1 =
        (calculateBP p.BloodPressure).1 + (calculateTemp p.Temperature).2.1) ∧
    (∀ bp' : String, (processPatient conv { p with BloodPressure := bp' }).1 =
      (processPatient conv p).1 - (calculateBP p.BloodPressure).1 + (calculateBP bp').1) ∧
    (∀ t' : Value, (processPatient conv { p with Temperature := t' }).1 =
      (processPatient conv p).1 - (calculateTemp p.Temperature).2.1 + (calculateTemp t').2.1) ∧
    (∀ a' : Value, (processPatient conv { p with Age := a' }).1 =
      (processPatient conv p).1 - (calculateAge conv p.Age).1 + (calculateAge conv a').1) := by
  refine ⟨rfl, ?_, ?_, ?_, ?_, ?_, ?_⟩
  · intro h
    rw [processPatient_eq, calculateBP_of_not_parses h]
    simp
  · intro h
    rw [processPatient_eq, calculateTemp_of_none h]
    simp
  · intro h
    rw [processPatient_eq, calculateAge_of_none h]
    simp
  · intro bp'
    simp only [processPatient_eq]
    omega
  · intro t'
    simp only [processPatient_eq]
    omega
  · intro a'
    simp only [processPatient_eq]
    omega

/-- C7 at the record `p2` of the specification (age `N/A`, temperature 98.2,
blood pressure `110/70`): the age does not parse and contributes 0, the total
is the blood-pressure stage 1 plus the temperature stage 0. -/
theorem totalScore_sum_witness :
    (calculateAge (fun _ => 0) (.str "N/A")).1 = 0 ∧
    (processPatient (fun _ => 0)
      ⟨"p2", "", .str "N/A", .number (.finite (6910210678246605 / 70368744177664)),
        "110/70"⟩).1 =
      (calculateBP "110/70").1 +
        (calculateTemp (.number (.finite (6910210678246605 / 70368744177664)))).2.1 :=
  (totalScore_sum (fun _ => 0)
    ⟨"p2", "", .str "N/A", .number (.finite (6910210678246605 / 70368744177664)),
      "110/70"⟩).2.2.2.1 (by decide)

/-- C8: the data-quality flag of `processPatient` is true exactly when at
least one of the three dimensions failed to parse: the blood pressure is not
`<int>/<int>`, the temperature does not coerce to a float, or the age does
not coerce to an integer. -/
theorem isDataQualityIssue_iff (conv : F64 → Int) (p : Patient) :
    (processPatient conv p).2.1 = true ↔
      (¬ bpParses p.BloodPressure ∨ getFloat p.Temperature = none ∨
        getInt conv p.Age = none) := by
  have ht : (calculateTemp p.Temperature).2.2 = true ↔ getFloat p.Temperature = none := by
    cases h : getFloat p.Temperature with
    | none => simp [calculateTemp_of_none h]
    | some v => simp [calculateTemp_of_some h]
  have ha : (calculateAge conv p.Age).2 = true ↔ getInt conv p.Age = none := by
    cases h : getInt conv p.Age with
    | none => simp [calculateAge_of_none h]
    | some v => simp [calculateAge_of_some h]
  rw [processPatient_eq]
  simp only [Bool.or_eq_true, calculateBP_invalid_iff, ht, ha, or_assoc]

/-- C8 at a record whose three fields parse (no flag) and at the record `p2`
of the specification, whose age is `N/A` (flag). -/
theorem isDataQualityIssue_iff_witness :
    (processPatient (fun _ => 0)
      ⟨"p1", "", .number (.finite 70), .number (.finite 101), "150/95"⟩).2.1 = false ∧
    (processPatient (fun _ => 0)
      ⟨"p2", "", .str "N/A", .number (.finite (6910210678246605 / 70368744177664)),
        "110/70"⟩).2.1 = true :=
  ⟨by decide!,
    (isDataQualityIssue_iff (fun _ => 0)
      ⟨"p2", "", .str "N/A", .number (.finite (6910210678246605 / 70368744177664)),
        "110/70"⟩).2 (Or.inr (Or.inr (by decide)))⟩

theorem mainStep_eq (conv : F64 → Int) (acc : Buckets) (p : Patient) :
    mainStep conv acc p =
      { highRisk :=
          if (processPatient conv p).1 ≥ 4 then acc.highRisk ++ [p.ID] else acc.highRisk,
        feverPatients :=
          if (processPatient conv p).2.2 = true then acc.feverPatients ++ [p.ID]
          else acc.feverPatients,
        qualityIssues :=
          if (processPatient conv p).2.1 = true then acc.qualityIssues ++ [p.ID]
          else acc.qualityIssues } := rfl

theorem foldl_mainStep (conv : F64 → Int) (ps : List Patient) (acc : Buckets) :
    ps.foldl (mainStep conv) acc =
      { highRisk := acc.highRisk ++
          (ps.filter (fun p => decide ((processPatient conv p).1 ≥ 4))).map Patient.ID,
        feverPatients := acc.feverPatients ++
          (ps.filter (fun p => (processPatient conv p).2.2)).map Patient.ID,
        qualityIssues := acc.qualityIssues ++
          (ps.filter (fun p => (processPatient conv p).2.1)).map Patient.ID } := by
  induction ps generalizing acc with
  | nil => simp
  | cons p ps ih =>
    rw [List.foldl_cons, ih, mainStep_eq]
    by_cases h1 : (processPatient conv p).1 ≥ 4 <;>
    by_cases h2 : (processPatient conv p).2.2 = true <;>
    by_cases h3 : (processPatient conv p).2.1 = true <;>
    simp [h1, h2, h3, List.filter_cons]

theorem processPatient_p1 (conv : F64 → Int) (id name : String) :
    processPatient conv ⟨id, name, .number (.finite 70), .number (.finite 101), "150/95"⟩ =
      (8, false, true) := by
  have hbp : calculateBP "150/95" = (4, false) := by decide
  have ht : calculateTemp (.number (.finite 101)) = (.finite 101, 2, false) := by decide!
  have ha : calculateAge conv (.number (.finite 70)) = (2, false) :=
    calculateAge_number conv 70 70 (by exact_mod_cast specTrunc_intCast 70) (by decide)
      (by decide)
  have hge : F64.ge (.finite 101) f64_99_6 = true := by decide!
  rw [processPatient_eq]
  simp only [hbp, ht, ha, hge]
  decide

theorem processPatient_p2 (conv : F64 → Int) (id name : String) :
    processPatient conv
      ⟨id, name, .str "N/A", .number (.finite (6910210678246605 / 70368744177664)), "110/70"⟩ =
      (1, true, false) := by
  have hbp : calculateBP "110/70" = (1, false) := by decide
  have ht : calculateTemp (.number (.finite (6910210678246605 / 70368744177664))) =
      (.finite (6910210678246605 / 70368744177664), 0, false) := by decide!
  have ha : calculateAge conv (.str "N/A") = (0, true) :=
    calculateAge_of_none (show Atoi "N/A".data = none by decide)
  have hge : F64.ge (.finite (6910210678246605 / 70368744177664)) f64_99_6 = false := by decide!
  rw [processPatient_eq]
  simp only [hbp, ht, ha, hge]
  decide

/-- C9: the three lists that the loop of `main` builds are the identifiers of
the order-preserving filters of the collected sequence: total score `>= 4`,
fever flag, data-quality flag; nothing is deduplicated. The records of the
specification: `p1` (age 70, temperature 101.0, `150/95`) scores 8 and lands in
the high-risk and fever lists only, `p2` (age `N/A`, temperature 98.2, `110/70`)
scores 1 and lands in the quality list only. -/
theorem mainLoop_filter (conv : F64 → Int) (allPatients : List Patient) :
    mainLoop conv allPatients =
      { highRisk :=
          (allPatients.filter (fun p => decide ((processPatient conv p).1 ≥ 4))).map Patient.ID,
        feverPatients :=
          (allPatients.filter (fun p => (processPatient conv p).2.2)).map Patient.ID,
        qualityIssues :=
          (allPatients.filter (fun p => (processPatient conv p).2.1)).map Patient.ID } ∧
    roundF64 false 982 10 = some (.finite (6910210678246605 / 70368744177664)) ∧
    processPatient conv ⟨"p1", "", .number (.finite 70), .number (.finite 101), "150/95"⟩ =
      (8, false, true) ∧
    processPatient conv
      ⟨"p2", "", .str "N/A", .number (.finite (6910210678246605 / 70368744177664)), "110/70"⟩ =
      (1, true, false) ∧
    mainLoop conv
      [⟨"p1", "", .number (.finite 70), .number (.finite 101), "150/95"⟩,
       ⟨"p2", "", .str "N/A", .number (.finite (6910210678246605 / 70368744177664)), "110/70"⟩,
       ⟨"p1", "", .number (.finite 70), .number (.finite 101), "150/95"⟩] =
      { highRisk := ["p1", "p1"], feverPatients := ["p1", "p1"], qualityIssues := ["p2"] } := by
  refine ⟨?_, by decide!, processPatient_p1 conv _ _, processPatient_p2 conv _ _, ?_⟩
  · unfold mainLoop
    rw [foldl_mainStep]
    simp
  · unfold mainLoop
    rw [foldl_mainStep]
    simp [List.filter_cons, processPatient_p1, processPatient_p2]

theorem fetchStep_transient (s : FetchState) {r : Response} (h : isTransient r = true) :
    fetchStep s r = .continue s := by
  cases r with
  | transportErr => rfl
  | http status body =>
    have h1 : status ≥ 500 ∨ status = 429 := by simpa [isTransient] using h
    simp [fetchStep, h1]

theorem fetchStep_success (s : FetchState) {r : Response} (h : isTransient r = false) :
    fetchStep s r =
      if (responsePage r).HasNext = true then
        .continue { page := s.page + 1, list := s.list ++ (responsePage r).Data }
      else .done (s.list ++ (responsePage r).Data) := by
  cases r with
  | transportErr => simp [isTransient] at h
  | http status body =>
    have h1 : ¬ (status ≥ 500 ∨ status = 429) := by simpa [isTransient] using h
    simp only [fetchStep, h1, if_false, responsePage]
    cases (decodeBody body).HasNext <;> simp

/-- Retries: while the requests `i, i+1, ..` for the page fail transiently,
the loop only consumes fuel. -/
theorem fetchLoop_retry (up : Nat → Nat → Response) (k : Nat) (acc : List Patient)
    (d i fuel : Nat) (hfail : ∀ j, i ≤ j → j < i + d → isTransient (up k j) = true) :
    fetchLoop up (fuel + d) i ⟨k, acc⟩ = fetchLoop up fuel (i + d) ⟨k, acc⟩ := by
  induction d generalizing i with
  | zero => rfl
  | succ d ih =>
    have h0 : isTransient (up k i) = true := hfail i (le_refl i) (by omega)
    have h1 : fetchLoop up (fuel + (d + 1)) i ⟨k, acc⟩ = fetchLoop up (fuel + d) (i + 1) ⟨k, acc⟩ := by
      show fetchLoop up ((fuel + d) + 1) i ⟨k, acc⟩ = _
      simp only [fetchLoop, fetchStep_transient _ h0, if_true]
    rw [h1, ih (i + 1) (fun j hj1 hj2 => hfail j (by omega) (by omega))]
    congr 1
    omega

/-- The loop from the first request for page `k`, with `m` pages after it. -/
theorem fetchLoop_pages (up : Nat → Nat → Response) (n : Nat) (N : Nat → Nat)
    (hfail : ∀ k, 1 ≤ k → k ≤ n → ∀ i, i < N k → isTransient (up k i) = true)
    (hsucc : ∀ k, 1 ≤ k → k ≤ n → isTransient (up k (N k)) = false)
    (hnext : ∀ k, 1 ≤ k → k ≤ n → (responsePage (up k (N k))).HasNext = decide (k < n))
    (m k : Nat) (hk : 1 ≤ k) (hkm : k + m = n) (acc : List Patient) (fuel : Nat)
    (hfuel : ((List.range' k (m + 1)).map (fun j => N j + 1)).sum ≤ fuel) :
    fetchLoop up fuel 0 ⟨k, acc⟩ =
      some (acc ++ (List.range' k (m + 1)).flatMap (fun j => (responsePage (up j (N j))).Data)) := by
  induction m generalizing k acc fuel with
  | zero =>
    have hkn : k = n := by omega
    simp only [List.range'_succ, List.range'_zero, List.map_cons, List.map_nil, List.sum_cons,
      List.sum_nil, add_zero] at hfuel
    obtain ⟨f, rfl⟩ : ∃ f, fuel = (f + 1) + N k := ⟨fuel - (N k + 1), by omega⟩
    rw [fetchLoop_retry up k acc (N k) 0 (f + 1)
      (fun j _ hj => hfail k hk (by omega) j (by omega))]
    have hs := hsucc k hk (by omega)
    have hn : (responsePage (up k (N k))).HasNext = false := by
      rw [hnext k hk (by omega), decide_eq_false_iff_not]
      omega
    simp only [fetchLoop, zero_add, fetchStep_success _ hs, hn]
    simp [List.range'_succ]
  | succ m ih =>
    rw [List.range'_succ] at hfuel ⊢
    simp only [List.map_cons, List.sum_cons] at hfuel
    obtain ⟨f, rfl⟩ : ∃ f, fuel = (f + 1) + N k := ⟨fuel - (N k + 1), by omega⟩
    rw [fetchLoop_retry up k acc (N k) 0 (f + 1)
      (fun j _ hj => hfail k hk (by omega) j (by omega))]
    have hs := hsucc k hk (by omega)
    have hn := hnext k hk (by omega)
    have hlt : k < n := by omega
    simp only [hlt, decide_True] at hn
    simp only [fetchLoop, zero_add, fetchStep_success _ hs, hn, if_true]
    rw [if_neg (by omega), ih (k + 1) (by omega) (by omega) _ f (by omega)]
    simp [List.flatMap_cons]

/-- C10: when, for every page `k` from 1 to `n`, the upstream answers the first
`N k` requests with a transient failure (transport error, status `>= 500` or
429) and the next one with a response that is not one, whose `hasNext` is true
for `k < n` and false for `k = n`, then `fetchAllPatients` returns (with any
bound on the requests that allows them all) exactly the data of the pages
`1, .., n` concatenated in that order. -/
theorem fetchAllPatients_pages (up : Nat → Nat → Response) (n : Nat) (N : Nat → Nat)
    (hn : 1 ≤ n)
    (hfail : ∀ k, 1 ≤ k → k ≤ n → ∀ i, i < N k → isTransient (up k i) = true)
    (hsucc : ∀ k, 1 ≤ k → k ≤ n → isTransient (up k (N k)) = false)
    (hnext : ∀ k, 1 ≤ k → k ≤ n → (responsePage (up k (N k))).HasNext = decide (k < n))
    (fuel : Nat) (hfuel : ((List.range' 1 n).map (fun k => N k + 1)).sum ≤ fuel) :
    fetchAllPatients up fuel =
      some ((List.range' 1 n).flatMap (fun k => (responsePage (up k (N k))).Data)) := by
  obtain ⟨m, rfl⟩ : ∃ m, n = m + 1 := ⟨n - 1, by omega⟩
  unfold fetchAllPatients
  rw [fetchLoop_pages up (m + 1) N hfail hsucc hnext m 1 (le_refl 1) (by omega) [] fuel hfuel]
  simp

/-- C10 at the mock upstream: two failures before page 1, one before page 2;
five requests give the record of page 1 followed by the record of page 2. -/
theorem fetchAllPatients_pages_witness :
    fetchAllPatients
      (mockUpstream ⟨"a", "", .null, .null, ""⟩ ⟨"b", "", .null, .null, ""⟩) 5 =
      some [⟨"a", "", .null, .null, ""⟩, ⟨"b", "", .null, .null, ""⟩] :=
  fetchAllPatients_pages
    (mockUpstream ⟨"a", "", .null, .null, ""⟩ ⟨"b", "", .null, .null, ""⟩) 2
    (fun k => if k = 1 then 2 else 1) (by decide)
    (by
      intro k h1 h2 i hi
      have hk : k = 1 ∨ k = 2 := by omega
      rcases hk with rfl | rfl
      · have hi2 : i = 0 ∨ i = 1 := by simp at hi; omega
        rcases hi2 with rfl | rfl <;> rfl
      · have hi2 : i = 0 := by simp at hi; omega
        subst hi2
        rfl)
    (by
      intro k h1 h2
      have hk : k = 1 ∨ k = 2 := by omega
      rcases hk with rfl | rfl <;> rfl)
    (by
      intro k h1 h2
      have hk : k = 1 ∨ k = 2 := by omega
      rcases hk with rfl | rfl <;> rfl)
    5 (by decide)

theorem fetchStep_done_iff (s : FetchState) (r : Response) (l : List Patient) :
    fetchStep s r = .done l ↔
      (isTransient r = false ∧ (responsePage r).HasNext = false ∧
        l = s.list ++ (responsePage r).Data) := by
  cases ht : isTransient r with
  | true => simp [fetchStep_transient s ht]
  | false =>
    rw [fetchStep_success s ht]
    cases (responsePage r).HasNext <;> simp [eq_comm]

/-- A run of the loop returns `l` within `fuel` requests exactly when some
iteration `k < fuel` is reached without a return and returns `l`. -/
theorem fetchLoop_eq_some_iff (up : Nat → Nat → Response) (fuel attempt : Nat) (s : FetchState)
    (l : List Patient) :
    fetchLoop up fuel attempt s = some l ↔
      ∃ (k att : Nat) (s1 : FetchState), k < fuel ∧
        fetchConfig up k attempt s = some (att, s1) ∧
        fetchStep s1 (up s1.page att) = .done l := by
  induction fuel generalizing attempt s with
  | zero => simp [fetchLoop]
  | succ fuel ih =>
    unfold fetchLoop
    cases hstep : fetchStep s (up s.page attempt) with
    | done l1 =>
      simp only [Option.some.injEq]
      constructor
      · intro h
        exact ⟨0, attempt, s, Nat.succ_pos _, rfl, h ▸ hstep⟩
      · rintro ⟨k, att, s1, _, hcfg, hdone⟩
        cases k with
        | zero =>
          simp only [fetchConfig, Option.some.injEq, Prod.mk.injEq] at hcfg
          obtain ⟨rfl, rfl⟩ := hcfg
          rw [hstep] at hdone
          simpa using hdone
        | succ k => simp [fetchConfig, hstep] at hcfg
    | «continue» s2 =>
      simp only
      rw [ih]
      constructor
      · rintro ⟨k, att, s1, hk, hcfg, hdone⟩
        refine ⟨k + 1, att, s1, Nat.succ_lt_succ hk, ?_, hdone⟩
        simp only [fetchConfig, hstep]
        exact hcfg
      · rintro ⟨k, att, s1, hk, hcfg, hdone⟩
        cases k with
        | zero =>
          simp only [fetchConfig, Option.some.injEq, Prod.mk.injEq] at hcfg
          obtain ⟨rfl, rfl⟩ := hcfg
          rw [hstep] at hdone
          cases hdone
        | succ k =>
          simp only [fetchConfig, hstep] at hcfg
          exact ⟨k, att, s1, Nat.lt_of_succ_lt_succ hk, hcfg, hdone⟩

theorem decodeBody_hasNext_false_iff (body : Body) :
    (decodeBody body).HasNext = false ↔
      (body = .malformed ∨ (∃ d, body = .object d none) ∨ (∃ d, body = .object d (some false)) ∨
        (∃ d, body = .typeError d false)) := by
  cases body with
  | malformed => simp [decodeBody]
  | object d h =>
    cases h with
    | none => simp [decodeBody]
    | some b => cases b <;> simp [decodeBody]
  | typeError d h => cases h <;> simp [decodeBody]

/-- C11, as stated, fails: against the upstream that answers 404 with a body
that is not JSON, `fetchAllPatients` returns (the empty list) after one
request, and the response that ended the collection is neither a success nor
carries `hasNext`. -/
theorem fetchAllPatients_ends_on_404 :
    fetchAllPatients notFoundUpstream 1 = some [] ∧
    fetchConfig notFoundUpstream 0 0 ⟨1, []⟩ = some (0, ⟨1, []⟩) ∧
    fetchStep ⟨1, []⟩ (notFoundUpstream 1 0) = .done [] ∧
    explicitCompletion (notFoundUpstream 1 0) = false ∧
    ¬ (∀ (up : Nat → Nat → Response) (fuel : Nat) (l : List Patient),
        fetchAllPatients up fuel = some l →
        ∃ (k att : Nat) (s1 : FetchState), k < fuel ∧
          fetchConfig up k 0 ⟨1, []⟩ = some (att, s1) ∧
          fetchStep s1 (up s1.page att) = .done l ∧
          explicitCompletion (up s1.page att) = true) := by
  refine ⟨rfl, rfl, rfl, rfl, ?_⟩
  intro h
  obtain ⟨k, att, s1, _, _, _, hex⟩ := h notFoundUpstream 1 [] rfl
  simp [notFoundUpstream, explicitCompletion] at hex

/-- C11, amended: in every run of `fetchAllPatients` that returns `l`, the
iteration that returned (iteration `k` of the run, in the state `s1`, on the
answer to its request number `att` for the page `s1.page`) processed a response
that is not retried (no transport error, status below 500 and not 429) and
after which `apiRes.HasNext` is false, and `l` is the list accumulated with
that page's data; a response ends the collection exactly in that case.
`HasNext` is false after the decode exactly when the body gave no JSON object
(nothing stored), or gave an object without the field, with the field `false`,
or with a decode error after which the field holds `false`; the dropped decode
error itself plays no role: a non-retried response whose decode reports a type
error but stores `hasNext = true` continues with the next page. -/
theorem fetchAllPatients_returns_on_hasNext_false (up : Nat → Nat → Response) (fuel : Nat)
    (l : List Patient) (h : fetchAllPatients up fuel = some l) :
    (∃ (k att : Nat) (s1 : FetchState), k < fuel ∧
      fetchConfig up k 0 ⟨1, []⟩ = some (att, s1) ∧
      fetchStep s1 (up s1.page att) = .done l ∧
      isTransient (up s1.page att) = false ∧
      (responsePage (up s1.page att)).HasNext = false ∧
      l = s1.list ++ (responsePage (up s1.page att)).Data) ∧
    (∀ (s : FetchState) (r : Response) (l1 : List Patient),
      fetchStep s r = .done l1 ↔
        (isTransient r = false ∧ (responsePage r).HasNext = false ∧
          l1 = s.list ++ (responsePage r).Data)) ∧
    (∀ (status : Int) (body : Body),
      (responsePage (.http status body)).HasNext = false ↔
        (body = .malformed ∨ (∃ d, body = .object d none) ∨
          (∃ d, body = .object d (some false)) ∨ (∃ d, body = .typeError d false))) ∧
    (∀ (s : FetchState) (status : Int) (d : List Patient), status < 500 → status ≠ 429 →
      decodeErr (.typeError d true) = true ∧
      fetchStep s (.http status (.typeError d true)) =
        .continue { page := s.page + 1, list := s.list ++ d }) := by
  refine ⟨?_, fetchStep_done_iff, fun _ body => decodeBody_hasNext_false_iff body, ?_⟩
  · obtain ⟨k, att, s1, hk, hcfg, hdone⟩ := (fetchLoop_eq_some_iff up fuel 0 _ l).1 h
    have h3 := (fetchStep_done_iff s1 _ l).1 hdone
    exact ⟨k, att, s1, hk, hcfg, hdone, h3.1, h3.2.1, h3.2.2⟩
  · intro s status d h1 h2
    refine ⟨rfl, ?_⟩
    have ht : isTransient (.http status (.typeError d true)) = false := by
      simp only [isTransient, Bool.or_eq_false_iff, decide_eq_false_iff_not]
      exact ⟨by omega, h2⟩
    rw [fetchStep_success s ht]
    rfl

/-- C11, amended, at the mock upstream: the run of five requests returns, and
the iteration that ended it is the fifth, on the 200 of page 2 with
`hasNext = false`. -/
theorem fetchAllPatients_returns_on_hasNext_false_witness :
    fetchAllPatients
        (mockUpstream ⟨"a", "", .null, .null, ""⟩ ⟨"b", "", .null, .null, ""⟩) 5 =
      some [⟨"a", "", .null, .null, ""⟩, ⟨"b", "", .null, .null, ""⟩] ∧
    fetchConfig (mockUpstream ⟨"a", "", .null, .null, ""⟩ ⟨"b", "", .null, .null, ""⟩) 4 0
        ⟨1, []⟩ = some (1, ⟨2, [⟨"a", "", .null, .null, ""⟩]⟩) ∧
    ∃ (k att : Nat) (s1 : FetchState), k < 5 ∧
      fetchConfig (mockUpstream ⟨"a", "", .null, .null, ""⟩ ⟨"b", "", .null, .null, ""⟩) k 0
        ⟨1, []⟩ = some (att, s1) ∧
      fetchStep s1
          (mockUpstream ⟨"a", "", .null, .null, ""⟩ ⟨"b", "", .null, .null, ""⟩ s1.page att) =
        .done [⟨"a", "", .null, .null, ""⟩, ⟨"b", "", .null, .null, ""⟩] ∧
      isTransient
          (mockUpstream ⟨"a", "", .null, .null, ""⟩ ⟨"b", "", .null, .null, ""⟩ s1.page att) =
        false ∧
      (responsePage
          (mockUpstream ⟨"a", "", .null, .null, ""⟩ ⟨"b", "", .null, .null, ""⟩ s1.page att)).HasNext =
        false ∧
      [⟨"a", "", .null, .null, ""⟩, ⟨"b", "", .null, .null, ""⟩] =
        s1.list ++ (responsePage
          (mockUpstream ⟨"a", "", .null, .null, ""⟩ ⟨"b", "", .null, .null, ""⟩ s1.page att)).Data :=
  ⟨rfl, rfl,
    (fetchAllPatients_returns_on_hasNext_false
      (mockUpstream ⟨"a", "", .null, .null, ""⟩ ⟨"b", "", .null, .null, ""⟩) 5
      [⟨"a", "", .null, .null, ""⟩, ⟨"b", "", .null, .null, ""⟩] rfl).1⟩

theorem calculateBPChecked_eq (bpStr : String) :
    calculateBPChecked bpStr = some (calculateBP bpStr) := by
  unfold calculateBPChecked calculateBP
  rcases hsp : splitOn '/' bpStr.data with _ | ⟨p0, _ | ⟨p1, _ | ⟨p2, ps⟩⟩⟩
  · simp
  · simp
  · simp only [List.length_cons, List.length_nil, ne_eq, not_true_eq_false, if_false,
      List.getElem?_cons_zero, List.getElem?_cons_succ]
    cases Atoi (TrimSpace p0) <;> cases Atoi (TrimSpace p1) <;> simp [bpStages]
  · simp

/-- C12: `processPatient` is total and never panics: with the two slice
accesses of `calculateBP` checked as at run time, every record (any string,
any age and temperature of any dynamic type) gives a result triple, the one of
the unchecked embedding; `parts[0]` and `parts[1]` exist whenever the split has
exactly two parts, which is the only case that reaches them; the result
carries no error value. -/
theorem processPatient_total (conv : F64 → Int) (p : Patient) :
    processPatientChecked conv p = some (processPatient conv p) ∧
    calculateBPChecked p.BloodPressure = some (calculateBP p.BloodPressure) ∧
    ((splitOn '/' p.BloodPressure.data).length = 2 →
      ((splitOn '/' p.BloodPressure.data)[0]?).isSome = true ∧
      ((splitOn '/' p.BloodPressure.data)[1]?).isSome = true) ∧
    ((splitOn '/' p.BloodPressure.data).length ≠ 2 →
      calculateBPChecked p.BloodPressure = some (0, true)) := by
  refine ⟨?_, calculateBPChecked_eq _, ?_, ?_⟩
  · unfold processPatientChecked
    rw [calculateBPChecked_eq]
    rfl
  · intro h
    rcases hsp : splitOn '/' p.BloodPressure.data with _ | ⟨p0, _ | ⟨p1, _ | ⟨p2, ps⟩⟩⟩ <;>
      simp [hsp] at h ⊢
  · intro h
    simp [calculateBPChecked, h]

/-- C12 at the empty blood-pressure string with absent age and temperature:
the split has one part, no slice access is reached, the result is
`(0, true, false)`. -/
theorem processPatient_total_witness :
    processPatientChecked (fun _ => 0) ⟨"p", "", .null, .null, ""⟩ = some (0, true, false) ∧
    calculateBPChecked "" = some (0, true) :=
  ⟨(processPatient_total (fun _ => 0) ⟨"p", "", .null, .null, ""⟩).1,
    (processPatient_total (fun _ => 0) ⟨"p", "", .null, .null, ""⟩).2.2.2 (by decide)⟩

/-- C15: a step of the collector on a transient failure (transport error,
status `>= 500`, or 429) leaves the page number and the accumulated list
unchanged; on any step that continues the page number stays or grows by
exactly 1, and it grows exactly when the response was not transient and had
`hasNext = true`; it never decreases. -/
theorem fetchStep_page (s : FetchState) (r : Response) :
    (isTransient r = true → fetchStep s r = .continue s) ∧
    (∀ s1 : FetchState, fetchStep s r = .continue s1 →
      (s1.page = s.page ∨ s1.page = s.page + 1) ∧ s.page ≤ s1.page ∧
      (s1.page = s.page + 1 ↔ (isTransient r = false ∧ (responsePage r).HasNext = true)) ∧
      (s1.page = s.page → s1 = s ∧ isTransient r = true)) := by
  refine ⟨fetchStep_transient s, ?_⟩
  intro s1 h
  cases ht : isTransient r with
  | true =>
    rw [fetchStep_transient s ht] at h
    cases h
    simp
  | false =>
    rw [fetchStep_success s ht] at h
    cases hn : (responsePage r).HasNext with
    | false => simp [hn] at h
    | true =>
      simp only [hn, if_true, Outcome.continue.injEq] at h
      subst h
      simp

/-- C15 at three responses from the state (page 3, no record): a 503 and a
transport error leave the state unchanged, a 200 with `hasNext = true` moves
to page 4. -/
theorem fetchStep_page_witness :
    fetchStep ⟨3, []⟩ (.http 503 .malformed) = .continue ⟨3, []⟩ ∧
    fetchStep ⟨3, []⟩ .transportErr = .continue ⟨3, []⟩ ∧
    ((4 : Nat) = 3 + 1 ↔
      (isTransient (.http 200 (.object (some []) (some true))) = false ∧
        (responsePage (.http 200 (.object (some []) (some true)))).HasNext = true)) :=
  ⟨(fetchStep_page ⟨3, []⟩ (.http 503 .malformed)).1 rfl,
    (fetchStep_page ⟨3, []⟩ .transportErr).1 rfl,
    ((fetchStep_page ⟨3, []⟩ (.http 200 (.object (some []) (some true)))).2 ⟨4, []⟩ rfl).2.2.1⟩

theorem mainLoop_single (conv : F64 → Int) (p : Patient) (r : Int × Bool × Bool)
    (h : processPatient conv p = r) :
    mainLoop conv [p] =
      { highRisk := if r.1 ≥ 4 then [p.ID] else [],
        feverPatients := if r.2.2 = true then [p.ID] else [],
        qualityIssues := if r.2.1 = true then [p.ID] else [] } := by
  subst h
  unfold mainLoop
  rw [List.foldl_cons, List.foldl_nil, mainStep_eq]
  simp

theorem processPatient_of_parts (conv : F64 → Int) (p : Patient) {b a ts : Int} {bi ai ti : Bool}
    {t : F64} (hb : calculateBP p.BloodPressure = (b, bi))
    (ht : calculateTemp p.Temperature = (t, ts, ti)) (ha : calculateAge conv p.Age = (a, ai)) :
    processPatient conv p = (b + ts + a, (bi || ti || ai), (!ti && F64.ge t f64_99_6)) := by
  rw [processPatient_eq, hb, ht, ha]

theorem calculateAge_30 (conv : F64 → Int) :
    calculateAge conv (.number (.finite 30)) = (1, false) :=
  calculateAge_number conv 30 30 (by exact_mod_cast specTrunc_intCast 30) (by decide) (by decide)

theorem calculateAge_NA (conv : F64 → Int) : calculateAge conv (.str "N/A") = (0, true) :=
  calculateAge_of_none (show Atoi "N/A".data = none by decide)

theorem calculateTemp_98 : calculateTemp (.number (.finite 98)) = (.finite 98, 0, false) := by
  decide!

theorem calculateTemp_100 : calculateTemp (.number (.finite 100)) = (.finite 100, 1, false) := by
  decide!

theorem calculateTemp_101 : calculateTemp (.number (.finite 101)) = (.finite 101, 2, false) := by
  decide!

theorem ge_99_6_of_98 : F64.ge (.finite 98) f64_99_6 = false := by decide!

theorem ge_99_6_of_100 : F64.ge (.finite 100) f64_99_6 = true := by decide!

theorem ge_99_6_of_101 : F64.ge (.finite 101) f64_99_6 = true := by decide!

theorem calculateBP_110_70 : calculateBP "110/70" = (1, false) := by decide

theorem calculateBP_150_95 : calculateBP "150/95" = (4, false) := by decide

/-- C13: membership in the three lists is independent: for each of the eight
choices of (high-risk, fever, data-quality issue) there is a record that the
loop of `main` puts in exactly the chosen lists. -/
theorem mainLoop_independent (conv : F64 → Int) (h f q : Bool) :
    ∃ p : Patient,
      mainLoop conv [p] =
        { highRisk := if h = true then [p.ID] else [],
          feverPatients := if f = true then [p.ID] else [],
          qualityIssues := if q = true then [p.ID] else [] } := by
  have key : ∀ (p : Patient) (r : Int × Bool × Bool), processPatient conv p = r →
      decide (r.1 ≥ 4) = h → r.2.2 = f → r.2.1 = q →
      mainLoop conv [p] =
        { highRisk := if h = true then [p.ID] else [],
          feverPatients := if f = true then [p.ID] else [],
          qualityIssues := if q = true then [p.ID] else [] } := by
    intro p r hr h1 h2 h3
    rw [mainLoop_single conv p r hr, ← h1, ← h2, ← h3]
    simp
  cases h <;> cases f <;> cases q
  · exact ⟨⟨"x", "", .number (.finite 30), .number (.finite 98), "110/70"⟩, key _ (2, false, false)
      (by rw [processPatient_of_parts conv _ calculateBP_110_70 calculateTemp_98
        (calculateAge_30 conv), ge_99_6_of_98]; rfl) rfl rfl rfl⟩
  · exact ⟨⟨"x", "", .str "N/A", .number (.finite 98), "110/70"⟩, key _ (1, true, false)
      (by rw [processPatient_of_parts conv _ calculateBP_110_70 calculateTemp_98
        (calculateAge_NA conv), ge_99_6_of_98]; rfl) rfl rfl rfl⟩
  · exact ⟨⟨"x", "", .number (.finite 30), .number (.finite 100), "110/70"⟩, key _ (3, false, true)
      (by rw [processPatient_of_parts conv _ calculateBP_110_70 calculateTemp_100
        (calculateAge_30 conv), ge_99_6_of_100]; rfl) rfl rfl rfl⟩
  · exact ⟨⟨"x", "", .str "N/A", .number (.finite 100), "110/70"⟩, key _ (2, true, true)
      (by rw [processPatient_of_parts conv _ calculateBP_110_70 calculateTemp_100
        (calculateAge_NA conv), ge_99_6_of_100]; rfl) rfl rfl rfl⟩
  · exact ⟨⟨"x", "", .number (.finite 30), .number (.finite 98), "150/95"⟩, key _ (5, false, false)
      (by rw [processPatient_of_parts conv _ calculateBP_150_95 calculateTemp_98
        (calculateAge_30 conv), ge_99_6_of_98]; rfl) rfl rfl rfl⟩
  · exact ⟨⟨"x", "", .str "N/A", .number (.finite 98), "150/95"⟩, key _ (4, true, false)
      (by rw [processPatient_of_parts conv _ calculateBP_150_95 calculateTemp_98
        (calculateAge_NA conv), ge_99_6_of_98]; rfl) rfl rfl rfl⟩
  · exact ⟨⟨"x", "", .number (.finite 30), .number (.finite 101), "150/95"⟩, key _ (7, false, true)
      (by rw [processPatient_of_parts conv _ calculateBP_150_95 calculateTemp_101
        (calculateAge_30 conv), ge_99_6_of_101]; rfl) rfl rfl rfl⟩
  · exact ⟨⟨"x", "", .str "N/A", .number (.finite 101), "150/95"⟩, key _ (6, true, true)
      (by rw [processPatient_of_parts conv _ calculateBP_150_95 calculateTemp_101
        (calculateAge_NA conv), ge_99_6_of_101]; rfl) rfl rfl rfl⟩

/-- The result of `processPatient` does not depend on the identifier and the
name: two records that agree on age, temperature and blood pressure give the
same triple. -/
theorem processPatient_fields (conv : F64 → Int) (p q : Patient)
    (hAge : p.Age = q.Age) (hTemp : p.Temperature = q.Temperature)
    (hBP : p.BloodPressure = q.BloodPressure) :
    processPatient conv p = processPatient conv q := by
  rw [processPatient_eq, processPatient_eq, hAge, hTemp, hBP]

theorem calculateBP_cases (bpStr : String) :
    (¬ bpParses bpStr ∧ calculateBP bpStr = (0, true)) ∨
    ∃ p0 p1 s d, splitOn '/' bpStr.data = [p0, p1] ∧ Atoi (TrimSpace p0) = some s ∧
      Atoi (TrimSpace p1) = some d ∧
      calculateBP bpStr = (max (specSysStage s) (specDiaStage d), false) := by
  by_cases h : bpParses bpStr
  · obtain ⟨p0, p1, s, d, hsplit, hs, hd⟩ := h
    exact Or.inr ⟨p0, p1, s, d, hsplit, hs, hd, calculateBP_of_parts hsplit hs hd⟩
  · exact Or.inl ⟨h, calculateBP_of_not_parses h⟩

theorem specSysStage_range (s : Int) : 1 ≤ specSysStage s ∧ specSysStage s ≤ 4 := by
  unfold specSysStage
  split_ifs <;> omega

theorem specDiaStage_range (d : Int) : 1 ≤ specDiaStage d ∧ specDiaStage d ≤ 4 := by
  unfold specDiaStage
  split_ifs <;> omega

theorem specSysStage_mono {s s' : Int} (h : s ≤ s') : specSysStage s ≤ specSysStage s' := by
  unfold specSysStage
  split_ifs <;> omega

theorem specDiaStage_mono {d d' : Int} (h : d ≤ d') : specDiaStage d ≤ specDiaStage d' := by
  unfold specDiaStage
  split_ifs <;> omega

theorem calculateTemp_range (t : Value) :
    (calculateTemp t).2.1 = 0 ∨ (calculateTemp t).2.1 = 1 ∨ (calculateTemp t).2.1 = 2 := by
  cases h : getFloat t with
  | none => simp [calculateTemp_of_none h]
  | some v =>
    rw [calculateTemp_of_some h]
    split_ifs <;> simp

theorem calculateAge_range (conv : F64 → Int) (a : Value) :
    (calculateAge conv a = (0, true) ∧ getInt conv a = none) ∨
    (calculateAge conv a = (1, false) ∧ ∃ v, getInt conv a = some v) ∨
    (calculateAge conv a = (2, false) ∧ ∃ v, getInt conv a = some v) := by
  cases h : getInt conv a with
  | none => simp [calculateAge_of_none h]
  | some v =>
    rw [calculateAge_of_some h]
    split_ifs <;> simp

/-- C16: for every valid blood pressure, with systolic `s` and diastolic `d`,
`calculateBP` returns 2 exactly when `120 <= s <= 129` and `d < 80`; and when
`s < 120` the stage is 1, 3 or 4, never 2. -/
theorem calculateBP_stage_two (bpStr : String) (p0 p1 : List Char) (s d : Int)
    (hsplit : splitOn '/' bpStr.data = [p0, p1])
    (hs : Atoi (TrimSpace p0) = some s) (hd : Atoi (TrimSpace p1) = some d) :
    ((calculateBP bpStr).1 = 2 ↔ (120 ≤ s ∧ s ≤ 129 ∧ d < 80)) ∧
    (s < 120 →
      ((calculateBP bpStr).1 = 1 ∨ (calculateBP bpStr).1 = 3 ∨ (calculateBP bpStr).1 = 4) ∧
      (calculateBP bpStr).1 ≠ 2) := by
  rw [calculateBP_of_parts hsplit hs hd]
  simp only [specSysStage, specDiaStage]
  constructor
  · split_ifs <;> simp [max_def] <;> omega
  · intro hlt
    split_ifs <;> simp [max_def]

/-- C16 at `125/70` (stage 2), and at `110/85` (systolic below 120: stage 3,
not 2). -/
theorem calculateBP_stage_two_witness :
    ((calculateBP "125/70").1 = 2 ↔ ((120 : Int) ≤ 125 ∧ (125 : Int) ≤ 129 ∧ (70 : Int) < 80)) ∧
    (calculateBP "125/70").1 = 2 ∧
    (((calculateBP "110/85").1 = 1 ∨ (calculateBP "110/85").1 = 3 ∨
        (calculateBP "110/85").1 = 4) ∧ (calculateBP "110/85").1 ≠ 2) ∧
    (calculateBP "110/85").1 = 3 :=
  ⟨(calculateBP_stage_two "125/70" "125".data "70".data 125 70 (by decide) (by decide)
      (by decide)).1,
    by decide,
    (calculateBP_stage_two "110/85" "110".data "85".data 110 85 (by decide) (by decide)
      (by decide)).2 (by decide),
    by decide⟩

/-- C17: for every record the blood-pressure stage is in 0..4, the temperature
stage in 0..2, the age contribution in 0..2, and the total score between 0 and
8; when the record has no data-quality issue the blood-pressure stage and the
age contribution are at least 1 and the total is between 2 and 8. -/
theorem score_bounds (conv : F64 → Int) (p : Patient) :
    (0 ≤ (calculateBP p.BloodPressure).1 ∧ (calculateBP p.BloodPressure).1 ≤ 4) ∧
    (0 ≤ (calculateTemp p.Temperature).2.1 ∧ (calculateTemp p.Temperature).2.1 ≤ 2) ∧
    (0 ≤ (calculateAge conv p.Age).1 ∧ (calculateAge conv p.Age).1 ≤ 2) ∧
    (0 ≤ (processPatient conv p).1 ∧ (processPatient conv p).1 ≤ 8) ∧
    ((processPatient conv p).2.1 = false →
      1 ≤ (calculateBP p.BloodPressure).1 ∧ 1 ≤ (calculateAge conv p.Age).1 ∧
      2 ≤ (processPatient conv p).1 ∧ (processPatient conv p).1 ≤ 8) := by
  have hbp : (calculateBP p.BloodPressure = (0, true)) ∨
      ((calculateBP p.BloodPressure).2 = false ∧ 1 ≤ (calculateBP p.BloodPressure).1 ∧
        (calculateBP p.BloodPressure).1 ≤ 4) := by
    rcases calculateBP_cases p.BloodPressure with ⟨_, h⟩ | ⟨p0, p1, s, d, _, _, _, h⟩
    · exact Or.inl h
    · right
      rw [h]
      have h1 := specSysStage_range s
      have h2 := specDiaStage_range d
      refine ⟨rfl, ?_, ?_⟩
      · exact le_max_of_le_left h1.1
      · exact max_le h1.2 h2.2
  have ht := calculateTemp_range p.Temperature
  have ha := calculateAge_range conv p.Age
  rw [processPatient_eq]
  simp only
  rcases hbp with hb | ⟨hb2, hb3, hb4⟩
  · rw [hb]
    rcases ha with ⟨ha, _⟩ | ⟨ha, _⟩ | ⟨ha, _⟩ <;> rw [ha] <;>
      rcases ht with ht | ht | ht <;> rw [ht] <;> simp
  · rcases ha with ⟨ha, _⟩ | ⟨ha, _⟩ | ⟨ha, _⟩ <;> rw [ha] <;>
      rcases ht with ht | ht | ht <;> rw [ht] <;> simp [hb2] <;> omega

/-- C17 at the record `p1` of the specification, which has no data-quality
issue and attains the upper bound 8. -/
theorem score_bounds_witness :
    (processPatient (fun _ => 0)
      ⟨"p1", "", .number (.finite 70), .number (.finite 101), "150/95"⟩).1 = 8 ∧
    1 ≤ (calculateBP "150/95").1 ∧ 1 ≤ (calculateAge (fun _ => 0) (.number (.finite 70))).1 ∧
    2 ≤ (processPatient (fun _ => 0)
      ⟨"p1", "", .number (.finite 70), .number (.finite 101), "150/95"⟩).1 ∧
    (processPatient (fun _ => 0)
      ⟨"p1", "", .number (.finite 70), .number (.finite 101), "150/95"⟩).1 ≤ 8 :=
  ⟨by decide!,
    (score_bounds (fun _ => 0)
      ⟨"p1", "", .number (.finite 70), .number (.finite 101), "150/95"⟩).2.2.2.2 (by decide!)⟩

theorem tempStage_mono {v v' : F64} (h : F64.le v v' = true) :
    (if F64.le v f64_99_5 then (0 : Int) else if F64.le v f64_100_9 then 1 else 2) ≤
      (if F64.le v' f64_99_5 then (0 : Int) else if F64.le v' f64_100_9 then 1 else 2) := by
  have a1 : F64.le v' f64_99_5 = true → F64.le v f64_99_5 = true := F64.le_trans' h
  have a2 : F64.le v' f64_100_9 = true → F64.le v f64_100_9 = true := F64.le_trans' h
  cases h1 : F64.le v' f64_99_5 <;> cases h3 : F64.le v' f64_100_9 <;>
    cases h5 : F64.le v f64_99_5 <;> cases h6 : F64.le v f64_100_9 <;> simp_all

theorem specTrunc_mono {q q' : ℚ} (h : q ≤ q') : specTrunc q ≤ specTrunc q' := by
  unfold specTrunc
  split_ifs with h1 h2 h2
  · exact Int.floor_mono h
  · exact absurd (le_trans h1 h) h2
  · have ha : ⌈q⌉ ≤ 0 := Int.ceil_le.mpr (by push_cast; linarith)
    have hb : 0 ≤ ⌊q'⌋ := Int.floor_nonneg.mpr h2
    omega
  · exact Int.ceil_mono h

theorem agePoints_mono {v v' : Int} (h : v ≤ v') :
    (if v > 65 then (2 : Int) else 1) ≤ (if v' > 65 then (2 : Int) else 1) := by
  split_ifs <;> omega

/-- C18, as stated, fails: with the conversion of amd64, the records with age
66 and with age 1e19 (a `float64`; both records valid, same temperature 98 and
blood pressure `110/70`) have totals 3 and 2, although 66 is below 1e19: the
age 1e19 does not fit `int`, is converted to the least `int`, and scores 1. -/
theorem score_not_monotone_in_float_age :
    roundF64 false (10 ^ 19) 1 = some (.finite 10000000000000000000) ∧
    getInt convAmd64 (.number (.finite 10000000000000000000)) = some minInt64 ∧
    processPatient convAmd64
      ⟨"x", "", .number (.finite 66), .number (.finite 98), "110/70"⟩ = (3, false, false) ∧
    processPatient convAmd64
      ⟨"x", "", .number (.finite 10000000000000000000), .number (.finite 98), "110/70"⟩ =
      (2, false, false) ∧
    ¬ (∀ (conv : F64 → Int) (p : Patient) (q q' : ℚ), p.Age = .number (.finite q) → q ≤ q' →
        (processPatient conv p).2.1 = false →
        (processPatient conv { p with Age := .number (.finite q') }).2.1 = false →
        (processPatient conv p).1 ≤
          (processPatient conv { p with Age := .number (.finite q') }).1) := by
  have h1 : processPatient convAmd64
      ⟨"x", "", .number (.finite 66), .number (.finite 98), "110/70"⟩ = (3, false, false) := by
    decide!
  have h2 : processPatient convAmd64
      ⟨"x", "", .number (.finite 10000000000000000000), .number (.finite 98), "110/70"⟩ =
      (2, false, false) := by
    decide!
  refine ⟨by decide!, by decide!, h1, h2, ?_⟩
  intro h
  have h3 := h convAmd64 ⟨"x", "", .number (.finite 66), .number (.finite 98), "110/70"⟩ 66
    10000000000000000000 rfl (by norm_num) (by rw [h1]) (by
      show (processPatient convAmd64
        ⟨"x", "", .number (.finite 10000000000000000000), .number (.finite 98), "110/70"⟩).2.1 =
          false
      rw [h2])
  have h4 : (processPatient convAmd64
      { (⟨"x", "", .number (.finite 66), .number (.finite 98), "110/70"⟩ : Patient) with
        Age := .number (.finite 10000000000000000000) }) = (2, false, false) := h2
  rw [h1, h4] at h3
  exact absurd h3 (by decide)

/-- C18, amended: the total score is monotone in each parsed measurement. With
the other two fields unchanged: a blood pressure whose systolic and diastolic
values are both at least those of the record (in particular one changed, the
other equal) has at least its stage and total; a temperature that coerces to a
greater or equal number (Go's `<=`) gives at least the total; an age that
coerces to a greater or equal integer gives at least the total, and so does a
greater or equal float age when both truncations fit `int`. -/
theorem score_monotone (conv : F64 → Int) (p : Patient) :
    (∀ (bp' : String) (p0 p1 p0' p1' : List Char) (s d s' d' : Int),
      splitOn '/' p.BloodPressure.data = [p0, p1] → Atoi (TrimSpace p0) = some s →
      Atoi (TrimSpace p1) = some d →
      splitOn '/' bp'.data = [p0', p1'] → Atoi (TrimSpace p0') = some s' →
      Atoi (TrimSpace p1') = some d' → s ≤ s' → d ≤ d' →
      (calculateBP p.BloodPressure).1 ≤ (calculateBP bp').1 ∧
      (processPatient conv p).1 ≤ (processPatient conv { p with BloodPressure := bp' }).1) ∧
    (∀ (t' : Value) (v v' : F64), getFloat p.Temperature = some v → getFloat t' = some v' →
      F64.le v v' = true →
      (processPatient conv p).1 ≤ (processPatient conv { p with Temperature := t' }).1) ∧
    (∀ (a' : Value) (v v' : Int), getInt conv p.Age = some v → getInt conv a' = some v' →
      v ≤ v' →
      (processPatient conv p).1 ≤ (processPatient conv { p with Age := a' }).1) ∧
    (∀ q q' : ℚ, p.Age = .number (.finite q) → q ≤ q' →
      minInt64 ≤ specTrunc q → specTrunc q' ≤ maxInt64 →
      (processPatient conv p).1 ≤
        (processPatient conv { p with Age := .number (.finite q') }).1) := by
  have hage : ∀ (a' : Value) (v v' : Int), getInt conv p.Age = some v →
      getInt conv a' = some v' → v ≤ v' →
      (processPatient conv p).1 ≤ (processPatient conv { p with Age := a' }).1 := by
    intro a' v v' hv hv' hle
    simp only [processPatient_eq, calculateAge_of_some hv, calculateAge_of_some hv']
    have := agePoints_mono hle
    omega
  refine ⟨?_, ?_, hage, ?_⟩
  · intro bp' p0 p1 p0' p1' s d s' d' hsplit hs hd hsplit' hs' hd' hle1 hle2
    have hmono : max (specSysStage s) (specDiaStage d) ≤ max (specSysStage s') (specDiaStage d') :=
      max_le_max (specSysStage_mono hle1) (specDiaStage_mono hle2)
    simp only [processPatient_eq, calculateBP_of_parts hsplit hs hd,
      calculateBP_of_parts hsplit' hs' hd']
    exact ⟨hmono, by omega⟩
  · intro t' v v' hv hv' hle
    simp only [processPatient_eq, calculateTemp_of_some hv, calculateTemp_of_some hv']
    have := tempStage_mono hle
    omega
  · intro q q' hq hle h1 h2
    have hm := specTrunc_mono hle
    have hmin : minInt64 ≤ maxInt64 := by decide
    refine hage _ (specTrunc q) (specTrunc q') ?_ ?_ hm
    · rw [hq]
      exact getInt_number conv q h1 (le_trans hm h2)
    · exact getInt_number conv q' (le_trans h1 hm) h2

/-- C18, amended, at the record with age 30, temperature 98 and `110/70` (total 2):
raising the systolic value to 150 does not lower the total. -/
theorem score_monotone_witness :
    (calculateBP "110/70").1 ≤ (calculateBP "150/70").1 ∧
    (processPatient (fun _ => 0)
      ⟨"x", "", .number (.finite 30), .number (.finite 98), "110/70"⟩).1 ≤
    (processPatient (fun _ => 0)
      ⟨"x", "", .number (.finite 30), .number (.finite 98), "150/70"⟩).1 :=
  (score_monotone (fun _ => 0)
    ⟨"x", "", .number (.finite 30), .number (.finite 98), "110/70"⟩).1 "150/70"
    "110".data "70".data "150".data "70".data 110 70 150 70
    (by decide) (by decide) (by decide) (by decide) (by decide) (by decide) (by decide)
    (by decide)

theorem mem_highRisk (conv : F64 → Int) (ps : List Patient) (p : Patient) (hp : p ∈ ps)
    (h : (processPatient conv p).1 ≥ 4) : p.ID ∈ (mainLoop conv ps).highRisk := by
  unfold mainLoop
  rw [foldl_mainStep]
  simp only [List.nil_append, List.mem_map, List.mem_filter, decide_eq_true_eq]
  exact ⟨p, ⟨hp, h⟩, rfl⟩

/-- C19: when the blood pressure parses with systolic `>= 140` or diastolic
`>= 90`, the total score is `>= 4` whatever the age and temperature fields
are, and the loop of `main` lists the patient as high-risk; when it parses
with diastolic `>= 80` and the age parses, the total score is `>= 4`. -/
theorem highRisk_of_bp (conv : F64 → Int) (p : Patient) (p0 p1 : List Char) (s d : Int)
    (hsplit : splitOn '/' p.BloodPressure.data = [p0, p1])
    (hs : Atoi (TrimSpace p0) = some s) (hd : Atoi (TrimSpace p1) = some d) :
    ((s ≥ 140 ∨ d ≥ 90) →
      (processPatient conv p).1 ≥ 4 ∧
      ∀ ps : List Patient, p ∈ ps → p.ID ∈ (mainLoop conv ps).highRisk) ∧
    (d ≥ 80 → (∃ v, getInt conv p.Age = some v) → (processPatient conv p).1 ≥ 4) := by
  have ht := calculateTemp_range p.Temperature
  have ha := calculateAge_range conv p.Age
  have hbp := calculateBP_of_parts hsplit hs hd
  have hsr := specSysStage_range s
  have hdr := specDiaStage_range d
  constructor
  · intro h
    have h4 : (processPatient conv p).1 ≥ 4 := by
      have hmax : 4 ≤ max (specSysStage s) (specDiaStage d) := by
        rcases h with h | h
        · exact le_max_of_le_left (by unfold specSysStage; split_ifs <;> omega)
        · exact le_max_of_le_right (by unfold specDiaStage; split_ifs <;> omega)
      simp only [processPatient_eq, hbp]
      rcases ha with ⟨ha, _⟩ | ⟨ha, _⟩ | ⟨ha, _⟩ <;> rw [ha] <;>
        rcases ht with ht | ht | ht <;> rw [ht] <;> simp only <;> omega
    exact ⟨h4, fun ps hp => mem_highRisk conv ps p hp h4⟩
  · rintro h ⟨v, hv⟩
    have hmax : 3 ≤ max (specSysStage s) (specDiaStage d) :=
      le_max_of_le_right (by unfold specDiaStage; split_ifs <;> omega)
    have hage : 1 ≤ (calculateAge conv p.Age).1 := by
      rw [calculateAge_of_some hv]
      simp only
      split_ifs <;> omega
    simp only [processPatient_eq, hbp]
    rcases ht with ht | ht | ht <;> rw [ht] <;> omega

/-- C19 at a record with `150/70` and neither age nor temperature: the total
is 4 and the patient is listed as high-risk. -/
theorem highRisk_of_bp_witness :
    (processPatient (fun _ => 0) ⟨"x", "", .null, .null, "150/70"⟩).1 ≥ 4 ∧
    ∀ ps : List Patient, (⟨"x", "", .null, .null, "150/70"⟩ : Patient) ∈ ps →
      "x" ∈ (mainLoop (fun _ => 0) ps).highRisk :=
  (highRisk_of_bp (fun _ => 0) ⟨"x", "", .null, .null, "150/70"⟩ "150".data "70".data 150 70
    (by decide) (by decide) (by decide)).1 (Or.inl (by decide))

theorem digitVal_eq (c : Char) :
    digitVal c = if 48 ≤ c.toNat ∧ c.toNat ≤ 57 then some (c.toNat - 48) else none := rfl

theorem digitsFrom_iff (ds : List Char) (acc n : Nat) :
    digitsFrom acc ds = some n ↔
      ((∀ c ∈ ds, 48 ≤ c.toNat ∧ c.toNat ≤ 57) ∧
        n = ds.foldl (fun a c => a * 10 + (c.toNat - 48)) acc) := by
  induction ds generalizing acc with
  | nil => simp [digitsFrom, eq_comm]
  | cons c cs ih =>
    unfold digitsFrom
    rw [digitVal_eq]
    by_cases h : 48 ≤ c.toNat ∧ c.toNat ≤ 57
    · simp only [h, and_self, if_true, ih, List.mem_cons, forall_eq_or_imp, true_and,
        List.foldl_cons]
    · simp only [h, if_false, List.mem_cons, forall_eq_or_imp, false_and]
      simp

theorem parseDigits_iff (ds : List Char) (n : Nat) :
    parseDigits ds = some n ↔
      (ds ≠ [] ∧ (∀ c ∈ ds, 48 ≤ c.toNat ∧ c.toNat ≤ 57) ∧ n = specDigitsValue ds) := by
  cases ds with
  | nil => simp [parseDigits]
  | cons c cs =>
    unfold parseDigits specDigitsValue
    rw [digitsFrom_iff]
    simp

theorem char_of_toNat {c : Char} {n : Nat} (h : c.toNat = n) : c = Char.ofNat n := by
  rw [← h, Char.ofNat_toNat]

/-- The model of `strconv.Atoi` accepts exactly the base-10 integer literals
that fit `int`, with their value. -/
theorem Atoi_iff (s : List Char) (v : Int) : Atoi s = some v ↔ specIntLiteral s v := by
  cases s with
  | nil =>
    simp only [Atoi, specIntLiteral]
    constructor
    · intro h; cases h
    · rintro ⟨ds, hne, _, h | h | h, _⟩
      · exact absurd h.1.symm hne
      · cases h.1
      · cases h.1
  | cons c cs =>
    have hA : Atoi (c :: cs) =
        match parseDigits (if (c.toNat == 45 || c.toNat == 43) = true then cs else c :: cs) with
        | none => none
        | some n =>
          if minInt64 ≤ (if (c.toNat == 45) = true then -(n : Int) else (n : Int)) ∧
              (if (c.toNat == 45) = true then -(n : Int) else (n : Int)) ≤ maxInt64
          then some (if (c.toNat == 45) = true then -(n : Int) else (n : Int)) else none := rfl
    rw [hA]
    by_cases hm : c.toNat = 45
    · have hc : c = '-' := char_of_toNat hm
      subst hc
      simp only [show (('-' : Char).toNat == 45) = true from rfl, Bool.true_or, if_true]
      constructor
      · intro h
        cases hp : parseDigits cs with
        | none => rw [hp] at h; cases h
        | some n =>
          rw [hp] at h
          simp only at h
          split_ifs at h with hr
          simp only [Option.some.injEq] at h
          obtain ⟨hne, hd, hn⟩ := (parseDigits_iff cs n).1 hp
          subst hn
          exact ⟨cs, hne, hd, Or.inr (Or.inr ⟨rfl, h.symm⟩), h ▸ hr.1, h ▸ hr.2⟩
      · rintro ⟨ds, hne, hd, h | h | h, h1, h2⟩
        · obtain ⟨rfl, _⟩ := h
          have := hd '-' (List.mem_cons_self _ _)
          exact absurd this (by decide)
        · cases h.1
        · obtain ⟨hs, hv⟩ := h
          simp only [List.cons.injEq, true_and] at hs
          subst hs
          rw [(parseDigits_iff cs _).2 ⟨hne, hd, rfl⟩]
          simp only
          rw [← hv, if_pos ⟨h1, h2⟩]
    · by_cases hp : c.toNat = 43
      · have hc : c = '+' := char_of_toNat hp
        subst hc
        simp only [show (('+' : Char).toNat == 45) = false from rfl,
          show (('+' : Char).toNat == 43) = true from rfl, Bool.false_or, if_true,
          Bool.false_eq_true, if_false]
        constructor
        · intro h
          cases hp : parseDigits cs with
          | none => rw [hp] at h; cases h
          | some n =>
            rw [hp] at h
            simp only at h
            split_ifs at h with hr
            simp only [Option.some.injEq] at h
            obtain ⟨hne, hd, hn⟩ := (parseDigits_iff cs n).1 hp
            subst hn
            exact ⟨cs, hne, hd, Or.inr (Or.inl ⟨rfl, h.symm⟩), h ▸ hr.1, h ▸ hr.2⟩
        · rintro ⟨ds, hne, hd, h | h | h, h1, h2⟩
          · obtain ⟨rfl, _⟩ := h
            have := hd '+' (List.mem_cons_self _ _)
            exact absurd this (by decide)
          · obtain ⟨hs, hv⟩ := h
            simp only [List.cons.injEq, true_and] at hs
            subst hs
            rw [(parseDigits_iff cs _).2 ⟨hne, hd, rfl⟩]
            simp only
            rw [← hv, if_pos ⟨h1, h2⟩]
          · cases h.1
      · have e1 : (c.toNat == 45) = false := by simpa using hm
        have e2 : (c.toNat == 43) = false := by simpa using hp
        simp only [e1, e2, Bool.or_self, Bool.false_eq_true, if_false]
        constructor
        · intro h
          cases hq : parseDigits (c :: cs) with
          | none => rw [hq] at h; cases h
          | some n =>
            rw [hq] at h
            simp only at h
            split_ifs at h with hr
            simp only [Option.some.injEq] at h
            obtain ⟨hne, hd, hn⟩ := (parseDigits_iff (c :: cs) n).1 hq
            subst hn
            exact ⟨c :: cs, hne, hd, Or.inl ⟨rfl, h.symm⟩, h ▸ hr.1, h ▸ hr.2⟩
        · rintro ⟨ds, hne, hd, h | h | h, h1, h2⟩
          · obtain ⟨hs, hv⟩ := h
            subst hs
            rw [(parseDigits_iff (c :: cs) _).2 ⟨hne, hd, rfl⟩]
            simp only
            rw [← hv, if_pos ⟨h1, h2⟩]
          · simp only [List.cons.injEq] at h
            rw [h.1.1] at hp
            exact absurd rfl hp
          · simp only [List.cons.injEq] at h
            rw [h.1.1] at hm
            exact absurd rfl hm

theorem isSpace_digit {c : Char} (h : 48 ≤ c.toNat ∧ c.toNat ≤ 57) : isSpace c = false := by
  unfold isSpace
  simp only [Bool.or_eq_false_iff, Bool.and_eq_false_iff, decide_eq_false_iff_not,
    beq_eq_false_iff_ne, ne_eq]
  omega

theorem trimLeft_self (s : List Char) (h : ∀ c, s.head? = some c → isSpace c = false) :
    trimLeft s = s := by
  cases s with
  | nil => rfl
  | cons c cs =>
    unfold trimLeft
    rw [h c rfl]
    rfl

theorem TrimSpace_self (s : List Char) (h1 : ∀ c, s.head? = some c → isSpace c = false)
    (h2 : ∀ c, s.getLast? = some c → isSpace c = false) : TrimSpace s = s := by
  unfold TrimSpace
  rw [trimLeft_self s h1, trimLeft_self s.reverse (by rw [List.head?_reverse]; exact h2),
    List.reverse_reverse]

theorem getLast?_mem {c : Char} : ∀ {ds : List Char}, ds.getLast? = some c → c ∈ ds
  | [], h => by cases h
  | [a], h => by
    simp only [List.getLast?_singleton, Option.some.injEq] at h
    simp [h]
  | a :: b :: l, h => by
    rw [List.getLast?_cons_cons] at h
    exact List.mem_cons_of_mem _ (getLast?_mem h)

/-- A string that `strconv.Atoi` accepts has no white space around it. -/
theorem TrimSpace_of_Atoi {s : List Char} {v : Int} (h : Atoi s = some v) : TrimSpace s = s := by
  obtain ⟨ds, hne, hd, hs, _⟩ := (Atoi_iff s v).1 h
  have hlast : ∀ c, ds.getLast? = some c → isSpace c = false :=
    fun c hc => isSpace_digit (hd c (getLast?_mem hc))
  have hhead : ∀ c, ds.head? = some c → isSpace c = false :=
    fun c hc => isSpace_digit (hd c (List.mem_of_mem_head? hc))
  have hlast' : ∀ (a : Char) (c : Char), (a :: ds).getLast? = some c → isSpace c = false := by
    intro a c hc
    cases ds with
    | nil => exact absurd rfl hne
    | cons b l =>
      rw [List.getLast?_cons_cons] at hc
      exact hlast c hc
  rcases hs with ⟨rfl, _⟩ | ⟨rfl, _⟩ | ⟨rfl, _⟩
  · exact TrimSpace_self _ hhead hlast
  · refine TrimSpace_self _ ?_ (hlast' _)
    intro c hc
    simp only [List.head?_cons, Option.some.injEq] at hc
    subst hc
    decide
  · refine TrimSpace_self _ ?_ (hlast' _)
    intro c hc
    simp only [List.head?_cons, Option.some.injEq] at hc
    subst hc
    decide

/-- C20: an age given as a string coerces exactly when the whole string,
untrimmed, is a base-10 integer literal that `strconv.Atoi` accepts, and it is
then scored on the literal's value; a string with white space around it never
coerces (the blood-pressure parts are trimmed, the age is not). The decimal
string `70.5` and the padded string ` 70` give `(0, invalid)`, the float 70.5
is truncated to 70 and gives `(2, valid)`, and the padded blood pressure
` 70 / 80 ` is valid. -/
theorem calculateAge_string (conv : F64 → Int) :
    (∀ (s : String) (v : Int), getInt conv (.str s) = some v ↔ specIntLiteral s.data v) ∧
    (∀ (s : String) (v : Int), specIntLiteral s.data v →
      calculateAge conv (.str s) = (if v > 65 then 2 else 1, false)) ∧
    (∀ s : String, (¬ ∃ v, specIntLiteral s.data v) → calculateAge conv (.str s) = (0, true)) ∧
    (∀ s : String, TrimSpace s.data ≠ s.data → calculateAge conv (.str s) = (0, true)) ∧
    calculateAge conv (.str "70.5") = (0, true) ∧
    calculateAge conv (.str " 70") = (0, true) ∧
    calculateAge conv (.str "70") = (2, false) ∧
    calculateAge conv (.number (.finite (141 / 2))) = (2, false) ∧
    calculateBP " 70 / 80 " = (3, false) := by
  have hget : ∀ (s : String) (v : Int),
      getInt conv (.str s) = some v ↔ specIntLiteral s.data v :=
    fun s v => Atoi_iff s.data v
  have hnone : ∀ s : String, (¬ ∃ v, specIntLiteral s.data v) →
      calculateAge conv (.str s) = (0, true) := by
    intro s h
    apply calculateAge_of_none
    cases hg : getInt conv (.str s) with
    | none => rfl
    | some v => exact absurd ⟨v, (hget s v).1 hg⟩ h
  refine ⟨hget, fun s v h => calculateAge_of_some ((hget s v).2 h), hnone, ?_, ?_, ?_, ?_, ?_,
    by decide⟩
  · intro s hs
    apply hnone
    rintro ⟨v, hv⟩
    exact hs (TrimSpace_of_Atoi ((Atoi_iff s.data v).2 hv))
  · exact calculateAge_of_none (show Atoi "70.5".data = none by decide)
  · exact calculateAge_of_none (show Atoi " 70".data = none by decide)
  · exact @calculateAge_of_some conv (.str "70") 70 (show Atoi "70".data = some 70 by decide)
  · refine calculateAge_number conv (141 / 2) 70 ?_ (by decide) (by decide)
    unfold specTrunc
    rw [if_pos (by norm_num), Int.floor_eq_iff]
    constructor <;> norm_num

/-- C20 at the string `66`: it is an integer literal, so the age coerces and
scores 2. -/
theorem calculateAge_string_witness :
    specIntLiteral "66".data 66 ∧ calculateAge (fun _ => 0) (.str "66") = (2, false) :=
  have h : specIntLiteral "66".data 66 :=
    ⟨"66".data, by decide, by decide, Or.inl ⟨rfl, by decide⟩, by decide, by decide⟩
  ⟨h, (calculateAge_string (fun _ => 0)).2.1 "66" 66 h⟩

end Ksense
